import Mathlib

/-!
Verification of the card-statistics overlay engine of the
`animestars-card-stats-ext` browser extension.

The development shallowly embeds the relevant parts of `src/content.ts` and
`src/background.ts`:

* a rose-tree model of DOM elements (tag, class list, attribute list,
  children) with the query primitives the code uses (`classList.contains`,
  `closest` with a class selector, `querySelector` with a tag or class
  selector);
* the identifier resolver (`extractCardId`, `extractCardIdAsync`,
  `findCardIdByImageUrlAsync`, URL normalisation);
* the mutation-observer classification logic (`startDOMObserver`,
  `isTradeRelatedElement`, `isCardElement`, `isTradePageContainer`,
  `hasCardsInside`);
* the overlay lifecycle (`addStatsOverlay`, `insertOverlay`,
  `performCleanup`) as a deterministic event-step system whose event lists
  model the interleavings the single-threaded JS runtime allows (every
  `await` is a suspension point, code between suspension points is atomic);
* the navigation-trigger coordinator (`handleNavigationTrigger`) and the
  debounced scanner (`processExistingCardsDebounced`) as timed event systems
  in which a timer callback fires exactly at its deadline (time cannot be
  advanced past a pending deadline);
* the activity gate (`processVisibleCards`, `resumeProcessing`);
* the `databaseUpdated` message handler and the background service's
  `handleMessage` dispatch.

JS numbers are modelled as `Nat` (all quantities involved are nonnegative
counters or ids), `null`/`undefined`/`NaN` results as `none`, and the
browser-provided DOM queries by executable functions on the rose tree.
-/

/-! ## A rose-tree model of DOM elements -/

mutual

/-- A DOM element: tag name (stored uppercase, as `tagName` reports it),
class list, attribute list, children. -/
inductive Dom where
  | el (tag : String) (classes : List String)
       (attrs : List (String × String)) (children : DomList)

/-- A list of sibling DOM elements (mutual with `Dom`). -/
inductive DomList where
  | nil
  | cons (d : Dom) (ds : DomList)

end

namespace Dom

def tag : Dom → String
  | .el t _ _ _ => t

def classes : Dom → List String
  | .el _ c _ _ => c

def attrs : Dom → List (String × String)
  | .el _ _ a _ => a

def children : Dom → DomList
  | .el _ _ _ ch => ch

/-- `element.classList.contains(c)`. -/
def hasClass (d : Dom) (c : String) : Bool :=
  d.classes.contains c

/-- `element.getAttribute(a)` (first binding wins, as in a real DOM). -/
def getAttr (d : Dom) (a : String) : Option String :=
  (d.attrs.find? (fun p => p.fst == a)).map Prod.snd

/-- `element.hasAttribute(a)`. -/
def hasAttr (d : Dom) (a : String) : Bool :=
  (d.attrs.find? (fun p => p.fst == a)).isSome

end Dom

mutual

/-- Does some strict descendant of `d` have class `c`?
Models `element.querySelector(classSel) !== null`. -/
def Dom.descHasClass (c : String) : Dom → Bool
  | .el _ _ _ ch => DomList.anyHasClass c ch

/-- Does some element in the forest (roots included) have class `c`? -/
def DomList.anyHasClass (c : String) : DomList → Bool
  | .nil => false
  | .cons d ds =>
    d.hasClass c || Dom.descHasClass c d || DomList.anyHasClass c ds

end

mutual

/-- First strict descendant with tag `tg`, in document order.
Models `element.querySelector(tagSel)` (HTML tag selectors are
case-insensitive; tags are stored uppercase here). -/
def Dom.queryTag (tg : String) : Dom → Option Dom
  | .el _ _ _ ch => DomList.queryTagL tg ch

def DomList.queryTagL (tg : String) : DomList → Option Dom
  | .nil => none
  | .cons d ds =>
    if d.tag == tg then some d
    else
      match Dom.queryTag tg d with
      | some r => some r
      | none => DomList.queryTagL tg ds

end

mutual

/-- First strict descendant with class `c`, in document order.
Models `element.querySelector(classSel)`. -/
def Dom.queryClass (c : String) : Dom → Option Dom
  | .el _ _ _ ch => DomList.queryClassL c ch

def DomList.queryClassL (c : String) : DomList → Option Dom
  | .nil => none
  | .cons d ds =>
    if d.hasClass c then some d
    else
      match Dom.queryClass c d with
      | some r => some r
      | none => DomList.queryClassL c ds

end

/-- Child at index `i` of a sibling list. -/
def DomList.get? : DomList → Nat → Option Dom
  | .nil, _ => none
  | .cons d _, 0 => some d
  | .cons _ ds, n + 1 => ds.get? n

/-- Node of `d` reached by the child-index path `p`. -/
def Dom.get? (d : Dom) : List Nat → Option Dom
  | [] => some d
  | i :: p =>
    match d.children.get? i with
    | some c => Dom.get? c p
    | none => none

/-- Does some node on the chain from `d` (inclusive) down to the node at
path `p` (inclusive) have class `c`?  Applied at the document root this is
`target.closest(classSel) !== null` for the node at `p`. -/
def Dom.chainHasClass : Dom → List Nat → String → Bool
  | d, [], c => d.hasClass c
  | d, i :: rest, c =>
    d.hasClass c ||
      (match d.children.get? i with
       | some ch => Dom.chainHasClass ch rest c
       | none => false)

/-! ## Identifier resolver (`content.ts`) -/

namespace Resolver

/-- One entry of the `cardSelectors` table (`CardSelector` in `types.ts`). -/
structure CardSelector where
  selector : String
  dataIdAttribute : String
  dataNameAttribute : Option String := none
  insertionMethod : String := "append"
  targetSelector : Option String := none
  extractFromImage : Bool := false

/-- `imageUrl.replace(/^https?:\/\/[^\/]+/, '')`: if the string starts with
a scheme followed by at least one non-slash character, drop the scheme and
that run of non-slash characters; otherwise the regex does not match and
the string is left unchanged. -/
def stripSchemeHost (s : String) : String :=
  if s.startsWith "https://" then
    match (s.drop 8).toList with
    | [] => s
    | ch :: rest =>
      if ch == '/' then s
      else String.mk ((ch :: rest).dropWhile (fun c => c != '/'))
  else if s.startsWith "http://" then
    match (s.drop 7).toList with
    | [] => s
    | ch :: rest =>
      if ch == '/' then s
      else String.mk ((ch :: rest).dropWhile (fun c => c != '/'))
  else s

/-- `.replace(/^\/+/, '')`: drop leading slashes. -/
def stripLeadingSlashes (s : String) : String :=
  String.mk (s.toList.dropWhile (fun c => c == '/'))

/-- URL normalisation performed by `findCardIdByImageUrlAsync`. -/
def normalizeImageUrl (s : String) : String :=
  stripLeadingSlashes (stripSchemeHost s)

/-- The background's reply to a `findCardByImage` request, as the content
script consumes it (`response.success && response.cardId`). -/
structure FindResp where
  success : Bool
  cardId : Option Nat

/-- The card id the content script accepts from a `findCardByImage` reply:
present only when `success` is truthy and `cardId` is a truthy number
(JS `0` is falsy). -/
def findRespId (r : FindResp) : Option Nat :=
  if r.success then
    match r.cardId with
    | some id => if id == 0 then none else some id
    | none => none
  else none

/-- Environment of one fingerprint lookup: the process-local
`cardIdCache`, the background's reply function, and whether
`chrome.runtime.sendMessage` rejects (the `catch` branch). -/
structure LookupEnv where
  cache : List (String × Nat)
  bg : String → FindResp
  bgThrows : String → Bool

/-- `findCardIdByImageUrlAsync(imageUrl)`: normalise the URL, consult the
cache, otherwise ask the background; on a match cache and return the id,
otherwise (no match, or the message send throws) return `null`.
Returns the resolved id together with the cache as left behind. -/
def findCardIdByImageUrlAsync (env : LookupEnv) (imageUrl : String) :
    Option Nat × List (String × Nat) :=
  let normalizedUrl := normalizeImageUrl imageUrl
  match env.cache.find? (fun p => p.fst == normalizedUrl) with
  | some p => (some p.snd, env.cache)
  | none =>
    if env.bgThrows normalizedUrl then (none, env.cache)
    else
      match findRespId (env.bg normalizedUrl) with
      | some cardId => (some cardId, (normalizedUrl, cardId) :: env.cache)
      | none => (none, env.cache)

/-- Digits-to-number helper for the embedded `parseInt`/regex captures. -/
def natOfDigits (cs : List Char) : Nat :=
  cs.foldl (fun n c => n * 10 + (c.toNat - '0'.toNat)) 0

/-- `parseInt(value, 10)` restricted to what reaches it here: a leading
digit run is parsed; a value with no leading digit yields `NaN`, which is
modelled as `none` (every caller rejects both `null` and `NaN` by a
truthiness test). -/
def parseIntOpt (s : String) : Option Nat :=
  let ds := s.toList.takeWhile Char.isDigit
  if ds.isEmpty then none else some (natOfDigits ds)

/-- `href.match(/id=(\d+)/)`: first occurrence of `id=` followed by at
least one digit; returns the digit run's value. -/
def findIdParam : List Char → Option Nat
  | [] => none
  | c :: cs =>
    if c == 'i' then
      match cs with
      | 'd' :: '=' :: rest =>
        let ds := rest.takeWhile Char.isDigit
        if ds.isEmpty then findIdParam cs else some (natOfDigits ds)
      | _ => findIdParam cs
    else findIdParam cs

/-- `extractCardId(element, selector)` (the synchronous cases). -/
def extractCardId (element : Dom) (sel : CardSelector) : Option Nat :=
  let attr := sel.dataIdAttribute
  if sel.extractFromImage && attr == "src" then
    -- images are no longer handled synchronously
    none
  else if attr == "href" then
    match element.getAttr "href" with
    | some href => findIdParam href.toList
    | none => none
  else
    let targetElement :=
      if element.hasClass "anime-cards__item-wrapper" then
        match element.queryClass "anime-cards__item" with
        | some cardItem => cardItem
        | none => element
      else element
    match targetElement.getAttr attr with
    | some v => parseIntOpt v
    | none => none

/-- `extractCardIdAsync(element, selector)`: for an image-fingerprint
selector, locate the `img`, take its `src`, and resolve it through the
dataset lookup; when the lookup reports no match the card is skipped
(`return null`) — explicitly, no numeric fallback is parsed from the URL.
All other selectors defer to the synchronous `extractCardId`. -/
def extractCardIdAsync (env : LookupEnv) (element : Dom) (sel : CardSelector) :
    Option Nat :=
  let attr := sel.dataIdAttribute
  if sel.extractFromImage && attr == "src" then
    match (if element.tag == "IMG" then some element else element.queryTag "IMG") with
    | some img =>
      match img.getAttr "src" with
      | some src =>
        match (findCardIdByImageUrlAsync env src).fst with
        | some cardId => some cardId
        | none => none
      | none => none
    | none => none
  else extractCardId element sel

/-- All maximal digit runs occurring in a character list, as numbers; used
to state that no numeric segment of an image URL is ever returned. -/
def digitRuns (cs : List Char) : List Nat :=
  let step := fun (acc : List Nat × List Char) (c : Char) =>
    if c.isDigit then (acc.fst, acc.snd ++ [c])
    else if acc.snd.isEmpty then (acc.fst, [])
    else (acc.fst ++ [natOfDigits acc.snd], [])
  let r := cs.foldl step ([], [])
  if r.snd.isEmpty then r.fst else r.fst ++ [natOfDigits r.snd]

end Resolver

/-! ## Background service message dispatch (`background.ts`) -/

namespace Background

/-- Shape of a reply sent through `sendResponse`: whether a `success`
field is present (and its value), whether an `error` field is present,
and the numeric `cardId` payload used by `findCardByImage` replies.
A field that the branch does not set is `none` (absent in JS). -/
structure Reply where
  success : Option Bool := none
  error : Option String := none
  cardId : Option Nat := none
deriving DecidableEq

/-- An incoming runtime message, reduced to the parts `handleMessage`
dispatches on: its `type` and whether `message.data.cardId` is a truthy
value. -/
structure Msg where
  mtype : String
  dataCardId : Option Nat := none

/-- Oracle for the effectful branches of `handleMessage` (network fetches
and IndexedDB reads); each field is the reply the corresponding branch
ends up sending. -/
structure BgEnv where
  getDatabasesListReply : Reply
  downloadDatabaseReply : Reply
  getReleaseReply : Reply
  downloadDataReply : Reply
  forceUpdateReply : Reply
  clearDatabaseReply : Reply
  getDatabaseInfoReply : Reply
  getCardsCountReply : Reply
  getCardStatsReply : Reply
  checkUpdatesReply : Reply

/-- The `switch (message.type)` dispatch of `handleMessage` in the shipped
background service: the exact case list of the source, with every
unrecognised type (including `ping` and `findCardByImage`) answered by the
default branch `sendResponse({ error: 'Unknown message type' })`. -/
def handleMessage (env : BgEnv) (m : Msg) : Reply :=
  match m.mtype with
  | "getDatabasesList" => env.getDatabasesListReply
  | "downloadDatabase" => env.downloadDatabaseReply
  | "getRelease" => env.getReleaseReply
  | "downloadData" => env.downloadDataReply
  | "forceUpdate" => env.forceUpdateReply
  | "clearDatabase" => env.clearDatabaseReply
  | "getDatabaseInfo" => env.getDatabaseInfoReply
  | "getCardsCount" => env.getCardsCountReply
  | "getCardStats" =>
    match m.dataCardId with
    | some _ => env.getCardStatsReply
    | none => { success := some false }
  | "checkUpdates" => env.checkUpdatesReply
  | _ => { error := some "Unknown message type" }

/-- The content script's initialization test on the ping reply:
`if (!pingResponse?.success) throw ...` — it proceeds only when a
`success` field is present and truthy. -/
def pingSucceeded (r : Reply) : Bool :=
  r.success == some true

/-- JS truthiness glue: how the content script's
`response.success && response.cardId` check reads a background reply
(an absent `success` field is falsy). -/
def replyToFindResp (r : Reply) : Resolver.FindResp :=
  ⟨r.success == some true, r.cardId⟩

/-- The lookup environment the content script sees when talking to the
shipped background service: every `findCardByImage` request is answered
by `handleMessage`, and the message channel itself does not throw. -/
def shippedLookupEnv (env : BgEnv) : Resolver.LookupEnv :=
  { cache := []
    bg := fun _ => replyToFindResp (handleMessage env { mtype := "findCardByImage" })
    bgThrows := fun _ => false }

end Background

/-! ## Dataset-update notification handling (`setupMessageListener`,
`clearAllProcessedFlags`) -/

namespace Update

/-- A card's statistics snapshot (`users`, `need`, `trade`). -/
structure CardStats where
  users : Nat
  need : Nat
  trade : Nat
deriving DecidableEq

/-- Per-card-element view: the two DOM attribute flags
(`data-animestars-processed`, `data-animestars-observing`) and whether a
`.card-stats-overlay` node is currently attached below it. -/
structure CardFlags where
  processed : Bool
  observing : Bool
  hasOverlay : Bool
deriving DecidableEq

/-- The content-script state touched by the `databaseUpdated` message
handler: the card elements on the page, the two process-wide caches, the
pending-cards set and the scheduled re-scan delay (if any). -/
structure ContentState where
  cards : List CardFlags
  statsCache : List (Nat × CardStats)
  cardIdCache : List (String × Nat)
  pendingCards : List Nat
  rescanDelay : Option Nat
deriving DecidableEq

/-- `clearAllProcessedFlags()`: removes the processed and observing
attributes from every element and clears the pending-cards set.  The
`statsCache` and `cardIdCache` maps are not touched. -/
def clearAllProcessedFlags (s : ContentState) : ContentState :=
  { s with
    cards := s.cards.map fun c => { c with processed := false, observing := false }
    pendingCards := [] }

/-- The `databaseUpdated` branch of `setupMessageListener`: clear all
processing flags, then schedule `processExistingCardsDebounced` after a
500ms settle delay. -/
def onDatabaseUpdated (s : ContentState) : ContentState :=
  let s1 := clearAllProcessedFlags s
  { s1 with rescanDelay := some 500 }

/-- The non-remelt admission test of `processExistingCards`: an element is
registered with the lazy loader only when it carries no observing flag and
has no overlay attached. -/
def admitsForObservation (c : CardFlags) : Bool :=
  !c.observing && !c.hasOverlay

/-- The stats-resolution step of `addStatsOverlay`: consult the
process-wide `statsCache` first and ask the background only on a miss.
Returns the stats found together with the number of background fetches
performed (0 on a cache hit). -/
def resolveStats (cache : List (Nat × CardStats)) (bg : Nat → Option CardStats)
    (cardId : Nat) : Option CardStats × Nat :=
  match cache.find? (fun p => p.fst == cardId) with
  | some p => (some p.snd, 0)
  | none => (bg cardId, 1)

end Update

/-! ## Activity gate (`processVisibleCards`, `resumeProcessing`) -/

namespace Activity

/-- Content-script state touched by the user-activity gate.  Card elements
are identified by numbers; `processedLog` records, in order, every card
that went through the visible-card processing path. -/
structure ActState where
  isUserActive : Bool
  wasProcessingPaused : Bool
  pendingCards : List Nat
  processedLog : List Nat
  rescanScheduled : Bool
deriving DecidableEq

/-- `this.pendingCards.add(card)` — JS `Set` semantics, no duplicates. -/
def addPending (pending : List Nat) (c : Nat) : List Nat :=
  if c ∈ pending then pending else pending ++ [c]

/-- `processVisibleCards(cards)`: when the user is inactive every card is
queued into the pending set; otherwise each card of the batch runs through
the processing path (the per-card re-check of `isUserActive` sees the same
value, since the batch prefix up to the first `await` is synchronous). -/
def processVisibleCards (cards : List Nat) (s : ActState) : ActState :=
  if !s.isUserActive then
    { s with pendingCards := cards.foldl addPending s.pendingCards }
  else
    { s with processedLog := s.processedLog ++ cards }

/-- `resumeProcessing()`: when processing was paused, clear the pause
marker, flush the pending set as one batch through
`processVisibleCards`, and schedule a follow-up full re-scan. -/
def resumeProcessing (s : ActState) : ActState :=
  if s.wasProcessingPaused then
    let s1 := { s with wasProcessingPaused := false }
    let s2 :=
      if s1.pendingCards.isEmpty then s1
      else processVisibleCards s1.pendingCards { s1 with pendingCards := [] }
    { s2 with rescanScheduled := true }
  else s

/-- Events of the activity gate: the inactivity timer firing
(`handleUserInactivity`), the tab being hidden (`handleUserLeft`), a user
interaction while inactive (`handleUserActivity`), the tab becoming
visible (`handleUserReturned`), and a batch of cards reported visible by
the IntersectionObserver. -/
inductive ActEv where
  | inactivity
  | hidden
  | activity
  | visible
  | admitEv (cards : List Nat)

/-- One step of the activity gate. -/
def actStep (s : ActState) : ActEv → ActState
  | .inactivity => { s with isUserActive := false, wasProcessingPaused := true }
  | .hidden => { s with isUserActive := false, wasProcessingPaused := true }
  | .activity =>
    if !s.isUserActive then resumeProcessing { s with isUserActive := true }
    else s
  | .visible => resumeProcessing { s with isUserActive := true }
  | .admitEv cards => processVisibleCards cards s

/-- Run of the activity gate over an event list. -/
def actRun (s : ActState) (evs : List ActEv) : ActState :=
  evs.foldl actStep s

/-- Initial activity state: user active, nothing pending. -/
def actInit : ActState :=
  { isUserActive := true, wasProcessingPaused := false, pendingCards := []
    processedLog := [], rescanScheduled := false }

end Activity

/-! ## Debounced full scan (`processExistingCardsDebounced`) -/

namespace Debounce

/-- State of the debounced scanner: the clock, the `lastProcessTime`
field, the activity flag, the deadlines of the `setTimeout` callbacks
still pending (in scheduling order), and the times at which
`processExistingCards` actually ran (most recent first). -/
structure DebState where
  now : Nat
  lastProcessTime : Nat
  isUserActive : Bool
  pending : List Nat
  execTimes : List Nat
deriving DecidableEq

/-- `processExistingCardsDebounced()`: an invocation within
`PROCESS_DEBOUNCE_DELAY` (500ms) of the last accepted one returns at once;
an accepted invocation stamps `lastProcessTime` and — only if the user is
active — schedules the scan 500ms later. -/
def invoke (s : DebState) : DebState :=
  if s.now - s.lastProcessTime < 500 then s
  else
    let s1 := { s with lastProcessTime := s.now }
    if !s1.isUserActive then s1
    else { s1 with pending := s1.pending ++ [s1.now + 500] }

/-- The scheduled timeout body: when due, re-check activity and run
`processExistingCards` only if the user is still active. -/
def fire (s : DebState) : DebState :=
  match s.pending with
  | [] => s
  | d :: rest =>
    if s.now < d then s
    else if s.isUserActive then
      { s with pending := rest, execTimes := s.now :: s.execTimes }
    else { s with pending := rest }

/-- Events: an invocation of the debounced scanner, a due timer firing,
the activity flag changing, and time passing. -/
inductive DebEv where
  | invoke
  | fire
  | setActive (b : Bool)
  | advance (k : Nat)

def debStep (s : DebState) : DebEv → DebState
  | .invoke => invoke s
  | .fire => fire s
  | .setActive b => { s with isUserActive := b }
  | .advance k => { s with now := s.now + k }

def debRun (s : DebState) (evs : List DebEv) : DebState :=
  evs.foldl debStep s

/-- Validity of one event in a state: time never advances past a pending
timer deadline, and `fire` is taken only when the earliest pending timer
is due (a JS timer callback runs when its time comes). -/
def stepOk (s : DebState) : DebEv → Bool
  | .advance k => s.pending.all (fun d => decide (s.now + k ≤ d))
  | .fire =>
    match s.pending.head? with
    | some d => decide (d ≤ s.now)
    | none => false
  | _ => true

/-- Validity of an event list from a state. -/
def validFrom (s : DebState) : List DebEv → Bool
  | [] => true
  | e :: evs => stepOk s e && validFrom (debStep s e) evs

/-- Initial state at absolute time `t0` (the class field
`lastProcessTime` starts at 0; the user counts as active). -/
def debInit (t0 : Nat) : DebState :=
  { now := t0, lastProcessTime := 0, isUserActive := true
    pending := [], execTimes := [] }

/-- Invariant tying the scanner state together: the stamp is in the past,
pending deadlines are 500-separated and within 500ms of the stamp, no
pending deadline is overdue, and executions are 500-separated, in the
past, and at least 500ms before any pending deadline. -/
def Inv (s : DebState) : Prop :=
  s.lastProcessTime ≤ s.now ∧
    List.Chain' (fun a b => a + 500 ≤ b) s.pending ∧
    (∀ d ∈ s.pending, d ≤ s.lastProcessTime + 500) ∧
    (∀ d ∈ s.pending, s.now ≤ d) ∧
    List.Chain' (fun a b => b + 500 ≤ a) s.execTimes ∧
    (∀ e ∈ s.execTimes, e ≤ s.now) ∧
    ∀ e ∈ s.execTimes, ∀ d ∈ s.pending, e + 500 ≤ d

end Debounce

/-! ## Navigation trigger coordinator (`handleNavigationTrigger`) -/

namespace Nav

/-- State of the navigation rebuild coordinator: the clock, the
single-flight flag and its bookkeeping (`lastNavigationStart`,
`navigationCounter`), the three timers (`navigationTimeout` retry,
`maxProcessingTime` watchdog, and the 100ms completion timeout whose body
runs `processExistingCardsDebounced` and `resetFlag`), completion count,
and counters for the synchronous cleanup work a rebuild performs. -/
structure NavState where
  now : Nat
  isNavigationProcessing : Bool
  lastNavigationStart : Nat
  navigationCounter : Nat
  retryDeadline : Option Nat
  watchdogDeadline : Option Nat
  rebuildDeadline : Option Nat
  completed : Nat
  flagsCleared : Nat
  overlayRemovals : Nat
  isRemelt : Bool
deriving DecidableEq

/-- `handleNavigationTrigger()`: when a rebuild is in flight the trigger
is queued — the pending retry timeout (if any) is cleared and a new one is
set 300ms out — and nothing else happens.  Otherwise the flag is set, the
watchdog armed 5s out, flags and overlays cleared; on a remelt page the
deep cleanup runs and `resetFlag` is called synchronously, on other pages
the completion timeout is set 100ms out. -/
def handleNavigationTrigger (s : NavState) : NavState :=
  if s.isNavigationProcessing then
    { s with retryDeadline := some (s.now + 300) }
  else
    let s1 := { s with
      isNavigationProcessing := true
      lastNavigationStart := s.now
      navigationCounter := s.navigationCounter + 1
      watchdogDeadline := some (s.now + 5000)
      flagsCleared := s.flagsCleared + 1
      overlayRemovals := s.overlayRemovals + 1 }
    if s1.isRemelt then
      { s1 with
          watchdogDeadline := none
          isNavigationProcessing := false
          completed := s1.completed + 1 }
    else
      { s1 with rebuildDeadline := some (s.now + 100) }

/-- The queued-retry timeout body: re-invoke `handleNavigationTrigger`. -/
def fireRetry (s : NavState) : NavState :=
  match s.retryDeadline with
  | none => s
  | some d =>
    if s.now < d then s
    else handleNavigationTrigger { s with retryDeadline := none }

/-- The watchdog body: force the in-flight flag clear. -/
def fireWatchdog (s : NavState) : NavState :=
  match s.watchdogDeadline with
  | none => s
  | some d =>
    if s.now < d then s
    else { s with watchdogDeadline := none, isNavigationProcessing := false }

/-- The completion timeout body (non-remelt pages): trigger the debounced
re-scan, then `resetFlag` (cancel the watchdog, clear the flag). -/
def fireRebuild (s : NavState) : NavState :=
  match s.rebuildDeadline with
  | none => s
  | some d =>
    if s.now < d then s
    else
      { s with
          rebuildDeadline := none
          watchdogDeadline := none
          isNavigationProcessing := false
          completed := s.completed + 1 }

/-- Events: a navigation trigger firing, the three timer bodies running,
and time passing. -/
inductive NavEv where
  | trigger
  | fireRetry
  | fireWatchdog
  | fireRebuild
  | advance (k : Nat)

def navStep (s : NavState) : NavEv → NavState
  | .trigger => handleNavigationTrigger s
  | .fireRetry => fireRetry s
  | .fireWatchdog => fireWatchdog s
  | .fireRebuild => fireRebuild s
  | .advance k => { s with now := s.now + k }

def navRun (s : NavState) (evs : List NavEv) : NavState :=
  evs.foldl navStep s

/-- Does one pending timer deadline allow the clock to reach `t`? -/
def allowsTime (o : Option Nat) (t : Nat) : Bool :=
  match o with
  | some d => decide (t ≤ d)
  | none => true

/-- Validity of one event: time never advances past a pending timer
deadline (a timer body runs when its time comes). -/
def navStepOk (s : NavState) : NavEv → Bool
  | .advance k =>
    allowsTime s.retryDeadline (s.now + k) &&
      allowsTime s.watchdogDeadline (s.now + k) &&
      allowsTime s.rebuildDeadline (s.now + k)
  | _ => true

/-- Validity of an event list from a state. -/
def navValidFrom (s : NavState) : List NavEv → Bool
  | [] => true
  | e :: evs => navStepOk s e && navValidFrom (navStep s e) evs

/-- Initial coordinator state at absolute time `t0`. -/
def navInit (t0 : Nat) (remelt : Bool) : NavState :=
  { now := t0, isNavigationProcessing := false, lastNavigationStart := 0
    navigationCounter := 0, retryDeadline := none, watchdogDeadline := none
    rebuildDeadline := none, completed := 0, flagsCleared := 0
    overlayRemovals := 0, isRemelt := remelt }

/-- Coordinator invariant: while a rebuild is in flight the watchdog is
armed for exactly 5s after its start, and no pending timer is overdue. -/
def NavInv (s : NavState) : Prop :=
  (s.isNavigationProcessing = true →
    s.watchdogDeadline = some (s.lastNavigationStart + 5000)) ∧
    (∀ d, s.retryDeadline = some d → s.now ≤ d) ∧
    (∀ d, s.watchdogDeadline = some d → s.now ≤ d) ∧
    ∀ d, s.rebuildDeadline = some d → s.now ≤ d

end Nav

/-! ## Overlay lifecycle (`addStatsOverlay`, `insertOverlay`,
`performCleanup`) as an event system

`addStatsOverlay` runs synchronously from its call up to the stats fetch
(`await chrome.runtime.sendMessage({type: 'getCardStats', ...})`) and
synchronously again from the fetch's resolution through `insertOverlay`;
the single-threaded runtime interleaves whole such segments.  The event
system below has one event per segment (`admitEv` events for the prefix, `fetchOk`
and `fetchFail` for the resolution suffix) plus the environment events
that can run in between: flag clearing, the navigation rebuild's
`removeAllStatsOverlays`, detachment and re-attachment of an element by
the host page, the 5s expiry of a remelt dedup-guard entry, and the
periodic `performCleanup` sweep.  `liveOverlays` counts the overlay nodes
currently present; which particular overlay nodes the sweep removes is
immaterial to the properties below, so the sweep is modelled on the
page-level counters, leaving the per-element counts as upper bounds. -/

namespace Life

/-- Per-card-element state: `document.contains`, the
`data-animestars-processed` flag, the number of `.card-stats-overlay`
descendants of the element itself, the number of stats fetches in flight
for it, whether its descriptor inserts the overlay into the element
itself (direct descriptors) or into a surrounding container
(`targetSelector` redirection, as for the trade/remelt image
descriptors), whether a descriptor still matches the element at insertion
time, whether this element's card id has its stats cached, and the remelt
dedup-guard entry keyed by its image's trailing path segment. -/
structure ElemState where
  attached : Bool
  processed : Bool
  overlayCount : Nat
  pendingFetches : Nat
  insertIntoSelf : Bool
  hasSelector : Bool
  statsCached : Bool
  remeltGuard : Bool
deriving DecidableEq

/-- Page-level state: the elements, `currentOverlaysCount`, the number of
overlay nodes present, and the page-context flags. -/
structure PageState where
  elems : List ElemState
  totalCounter : Nat
  liveOverlays : Nat
  unlimited : Bool
  isRemelt : Bool
deriving DecidableEq

/-- The post-resolution tail of `addStatsOverlay`: find a matching
descriptor (`cardSelectors.find(sel => card.element.matches(...))`), then
`insertOverlay` — whose final duplicate check inspects the card element's
own subtree and discards the built overlay when one is already there —
and increment `currentOverlaysCount` (the counter is incremented whether
or not `insertOverlay` discarded the overlay). -/
def insertAttempt (p : PageState) (i : Nat) : PageState :=
  match p.elems.get? i with
  | none => p
  | some e =>
    if !e.hasSelector then p
    else if e.overlayCount != 0 then
      { p with totalCounter := p.totalCounter + 1 }
    else
      if e.insertIntoSelf then
        { p with
            elems := p.elems.set i { e with overlayCount := e.overlayCount + 1 }
            liveOverlays := p.liveOverlays + 1
            totalCounter := p.totalCounter + 1 }
      else
        { p with
            liveOverlays := p.liveOverlays + 1
            totalCounter := p.totalCounter + 1 }

/-- The synchronous prefix of one `processVisibleCards` →
`addStatsOverlay` call for element `i`: the caller's own no-overlay
check, then the cap check (skipped on unlimited pages), the
`document.contains` check, the remelt dedup guard (checked and set), the
existing-overlay / processed-flag check, setting the processed flag, and
finally either a synchronous insertion (stats cache hit) or the start of
an async stats fetch. -/
def admitStep (p : PageState) (i : Nat) : PageState :=
  match p.elems.get? i with
  | none => p
  | some e =>
    if e.overlayCount != 0 then p
    else if !p.unlimited && decide (p.totalCounter ≥ 200) then p
    else if !e.attached then p
    else if p.isRemelt && e.remeltGuard then p
    else
      let e1 := if p.isRemelt then { e with remeltGuard := true } else e
      if e1.overlayCount != 0 || e1.processed then
        { p with elems := p.elems.set i e1 }
      else
        let e2 := { e1 with processed := true }
        if e2.statsCached then
          insertAttempt { p with elems := p.elems.set i e2 } i
        else
          let e3 := { e2 with pendingFetches := e2.pendingFetches + 1 }
          { p with elems := p.elems.set i e3 }

/-- A pending stats fetch for element `i` resolves successfully: the
stats are cached and the post-resolution tail runs. -/
def fetchOkStep (p : PageState) (i : Nat) : PageState :=
  match p.elems.get? i with
  | none => p
  | some e =>
    if e.pendingFetches = 0 then p
    else
      let e1 := { e with
          pendingFetches := e.pendingFetches - 1
          statsCached := true }
      insertAttempt { p with elems := p.elems.set i e1 } i

/-- A pending stats fetch resolves with `!response.success ||
!response.data`: `addStatsOverlay` returns — the element stays flagged
processed and no overlay is built. -/
def fetchFailStep (p : PageState) (i : Nat) : PageState :=
  match p.elems.get? i with
  | none => p
  | some e =>
    if e.pendingFetches = 0 then p
    else
      let e1 := { e with pendingFetches := e.pendingFetches - 1 }
      { p with elems := p.elems.set i e1 }

/-- `clearAllProcessedFlags()` over these elements. -/
def clearFlagsStep (p : PageState) : PageState :=
  { p with elems := p.elems.map fun e => { e with processed := false } }

/-- `removeAllStatsOverlays()`: every overlay node is removed; the
page-wide counter is NOT decremented (the source does not touch
`currentOverlaysCount` there). -/
def removeAllStep (p : PageState) : PageState :=
  { p with
      elems := p.elems.map fun e => { e with overlayCount := 0 }
      liveOverlays := 0 }

/-- The host page detaches / re-attaches element `i`. -/
def detachStep (p : PageState) (i : Nat) : PageState :=
  match p.elems.get? i with
  | none => p
  | some e => { p with elems := p.elems.set i { e with attached := false } }

def reattachStep (p : PageState) (i : Nat) : PageState :=
  match p.elems.get? i with
  | none => p
  | some e => { p with elems := p.elems.set i { e with attached := true } }

/-- The 5-second self-expiry of a remelt dedup-guard entry. -/
def clearGuardStep (p : PageState) (i : Nat) : PageState :=
  match p.elems.get? i with
  | none => p
  | some e => { p with elems := p.elems.set i { e with remeltGuard := false } }

/-- `performCleanup()`: on a page with the cap in force, when the counter
exceeds `MAX_TOTAL_OVERLAYS` (200), remove `counter - 200` overlay nodes
(bounded by how many are present), decrementing the counter per removal.
(The orphan branch inspects `document.querySelectorAll` results, whose
parents are in the document by construction, and is vacuous here.) -/
def cleanupStep (p : PageState) : PageState :=
  if !p.unlimited && decide (p.totalCounter > 200) then
    let toRemove := p.totalCounter - 200
    let removed := min toRemove p.liveOverlays
    { p with
        liveOverlays := p.liveOverlays - removed
        totalCounter := p.totalCounter - removed }
  else p

/-- Events of the overlay lifecycle. -/
inductive LifeEv where
  | admitEv (i : Nat)
  | fetchOk (i : Nat)
  | fetchFail (i : Nat)
  | clearFlags
  | removeAllOverlays
  | detach (i : Nat)
  | reattach (i : Nat)
  | clearRemeltGuard (i : Nat)
  | cleanup

def lifeStep (p : PageState) : LifeEv → PageState
  | .admitEv i => admitStep p i
  | .fetchOk i => fetchOkStep p i
  | .fetchFail i => fetchFailStep p i
  | .clearFlags => clearFlagsStep p
  | .removeAllOverlays => removeAllStep p
  | .detach i => detachStep p i
  | .reattach i => reattachStep p i
  | .clearRemeltGuard i => clearGuardStep p i
  | .cleanup => cleanupStep p

def lifeRun (p : PageState) (evs : List LifeEv) : PageState :=
  evs.foldl lifeStep p

/-- A fresh, attached, unprocessed card element. -/
def mkElem (insertSelf : Bool) : ElemState :=
  { attached := true, processed := false, overlayCount := 0
    pendingFetches := 0, insertIntoSelf := insertSelf, hasSelector := true
    statsCached := false, remeltGuard := false }

/-- A page with `n` fresh card elements and no overlays. -/
def initPage (n : Nat) (unlimited remelt insertSelf : Bool) : PageState :=
  { elems := List.replicate n (mkElem insertSelf)
    totalCounter := 0, liveOverlays := 0
    unlimited := unlimited, isRemelt := remelt }

end Life

/-! ## Mutation watcher (`startDOMObserver` and its classifiers) -/

namespace Observer

/-- Oracles for the browser's matching of the compound `cardSelectors`
CSS selectors (descendant combinators, attribute-substring tests), keyed
by the node's path in the document; the class-selector queries the
watcher performs (`closest`, `querySelector` on
`.card-stats-overlay`/`.card-stats`) are implemented concretely on the
tree.  `pathname` is `window.location.pathname`. -/
structure CssEnv where
  pathname : String
  matchesCardSelector : List Nat → Bool
  nodeHasCardsInside : List Nat → Bool
  matchesTradeContainerSel : List Nat → Bool

/-- Is the first list a prefix of the second? -/
def startsWithL : List Char → List Char → Bool
  | [], _ => true
  | _ :: _, [] => false
  | p :: ps, c :: cs => p == c && startsWithL ps cs

/-- Does `sub` occur contiguously somewhere in the list? -/
def hasSub (sub : List Char) : List Char → Bool
  | [] => sub.isEmpty
  | c :: cs => startsWithL sub (c :: cs) || hasSub sub cs

/-- JS `String.prototype.includes`. -/
def strIncludes (s sub : String) : Bool :=
  hasSub sub.toList s.toList

/-- Does the character list contain a `/cards/<digits>/trade/` segment?
Embeds the regex test `pathname.match(/\/cards\/\d+\/trade\//)`. -/
def hasCardsTradeSub : List Char → Bool
  | [] => false
  | c :: cs =>
    (startsWithL "/cards/".toList (c :: cs) &&
      (let rest := (c :: cs).drop 7
       let ds := rest.takeWhile Char.isDigit
       !ds.isEmpty && startsWithL "/trade/".toList (rest.drop ds.length))) ||
      hasCardsTradeSub cs

/-- `isTradeRelatedElement`'s page test: a real trade page, not the
catalog. -/
def isActualTradePage (pathname : String) : Bool :=
  hasCardsTradeSub pathname.toList || pathname == "/trade/"

/-- The catalog test of the observer callback:
`pathname === '/cards/' || pathname.startsWith('/cards/?')`. -/
def isCardsCatalog (pathname : String) : Bool :=
  pathname == "/cards/" || pathname.startsWith "/cards/?"

/-- `element.className` (the space-joined class string). -/
def classNameOf (el : Dom) : String :=
  String.intercalate " " el.classes

/-- The attribute probe of `isCardElement`. -/
def cardAttrHit (el : Dom) : Bool :=
  ["data-id", "data-card-id", "data-pack-id", "data-rank"].any
    (fun a => el.hasAttr a)

/-- The class-substring probe of `isCardElement`
(`current.className.includes(cls)`). -/
def cardClassHit (el : Dom) : Bool :=
  ["card", "trade-card", "inventory-card", "pack-card", "owl-item"].any
    (fun cls => strIncludes (classNameOf el) cls)

/-- `isCardElement(element)`: walk the element and up to four ancestors
(`maxDepth = 5`), testing the card selectors (oracle), the card
attributes and the card class substrings. -/
def isCardElementAux (env : CssEnv) (doc : Dom) (p : List Nat) : Nat → Bool
  | 0 => false
  | fuel + 1 =>
    match doc.get? p with
    | none => false
    | some el =>
      env.matchesCardSelector p || cardAttrHit el || cardClassHit el ||
        (match p with
         | [] => false
         | _ :: _ => isCardElementAux env doc p.dropLast fuel)

def isCardElement (env : CssEnv) (doc : Dom) (p : List Nat) : Bool :=
  isCardElementAux env doc p 5

/-- `isTradePageContainer(element)`: only on trade-URL pages, then the
container selector list (oracle). -/
def isTradePageContainer (env : CssEnv) (p : List Nat) : Bool :=
  if !(strIncludes env.pathname "/trade/") then false
  else env.matchesTradeContainerSel p

/-- `isTradeRelatedElement(element, attributeName)`: reject a missing
attribute name, reject anything that is, contains, or lies inside a
`.card-stats-overlay` subtree, require an actual trade page, then accept
the trade-specific and card-related attribute lists. -/
def isTradeRelatedElement (env : CssEnv) (doc : Dom) (p : List Nat)
    (attributeName : Option String) : Bool :=
  match attributeName with
  | none => false
  | some attrName =>
    match doc.get? p with
    | none => false
    | some el =>
      if el.hasClass "card-stats-overlay" ||
          doc.chainHasClass p "card-stats-overlay" ||
          el.descHasClass "card-stats-overlay" then false
      else if !(isActualTradePage env.pathname) then false
      else if ["data-id", "data-rank", "src", "href", "data-card-id"].contains
          attrName then
        isCardElement env doc p || isTradePageContainer env p
      else if ["data-loaded", "data-updated", "src", "data-id", "data-rank"].contains
          attrName then
        isCardElement env doc p
      else false

/-- A mutation record, reduced to what the callback consumes: added and
removed node paths for `childList` records, the target path and attribute
name for `attributes` records. -/
inductive MutRec where
  | childList (added removed : List (List Nat))
  | attr (target : List Nat) (attrName : String)

/-- The accumulator of the observer callback. -/
structure ObsFlags where
  shouldProcess : Bool
  isTradePageUpdate : Bool
  hasCardChanges : Bool
deriving DecidableEq

/-- The self-exclusion guard on an added node (`content.ts`): skip
anything that is a `.card-stats-overlay`, lies inside one (`closest`),
contains one (`querySelector`), is a `.card-stats`, or lies inside one. -/
def overlaySkipEl (doc : Dom) (p : List Nat) (el : Dom) : Bool :=
  el.hasClass "card-stats-overlay" ||
    doc.chainHasClass p "card-stats-overlay" ||
    el.descHasClass "card-stats-overlay" ||
    el.hasClass "card-stats" ||
    doc.chainHasClass p "card-stats"

/-- Classification of one added node. -/
def processAdded (env : CssEnv) (doc : Dom) (f : ObsFlags) (p : List Nat) :
    ObsFlags :=
  match doc.get? p with
  | none => f
  | some el =>
    if overlaySkipEl doc p el then f
    else
      let cat := isCardsCatalog env.pathname
      let f1 :=
        if cat then
          if isCardElement env doc p then
            { f with shouldProcess := true, hasCardChanges := true }
          else f
        else
          if isTradePageContainer env p then
            { f with shouldProcess := true, isTradePageUpdate := true, hasCardChanges := true }
          else if isCardElement env doc p then
            { f with shouldProcess := true, hasCardChanges := true }
          else f
      if env.nodeHasCardsInside p then
        let f2 := { f1 with shouldProcess := true, hasCardChanges := true }
        if !cat && isTradeRelatedElement env doc p none then
          { f2 with isTradePageUpdate := true }
        else f2
      else f1

/-- Classification of one attribute mutation. -/
def processAttr (env : CssEnv) (doc : Dom) (f : ObsFlags) (p : List Nat)
    (attrName : String) : ObsFlags :=
  if isTradeRelatedElement env doc p (some attrName) then
    { f with shouldProcess := true, isTradePageUpdate := true, hasCardChanges := true }
  else f

/-- One mutation record's contribution.  Removed nodes only ever clear
processed flags on large card containers; they never set any of the
three flags, so they contribute nothing here. -/
def processMutation (env : CssEnv) (doc : Dom) (f : ObsFlags) :
    MutRec → ObsFlags
  | .childList added _removed => added.foldl (processAdded env doc) f
  | .attr target attrName => processAttr env doc f target attrName

/-- The whole observer callback: fold the mutation batch, then — only
when `shouldProcess` — schedule the debounced re-scan, with an 800ms
delay (after clearing all processed flags) for trade-page updates and
300ms otherwise.  `none` means no re-scan is scheduled. -/
def observerCallback (env : CssEnv) (doc : Dom) (muts : List MutRec) :
    Option (Nat × Bool) :=
  let f := muts.foldl (processMutation env doc) ⟨false, false, false⟩
  if f.shouldProcess then
    some ((if f.isTradePageUpdate then 800 else 300),
      f.hasCardChanges && f.isTradePageUpdate)
  else none

/-- All prefixes of a path (including `[]` and the path itself). -/
def prefixesOf : List Nat → List (List Nat)
  | [] => [[]]
  | i :: r => [] :: (prefixesOf r).map (fun q => i :: q)

/-- The node at `p` is an overlay root (`.card-stats-overlay`), lies
inside an overlay subtree, or contains one. -/
def overlayRelated (doc : Dom) (p : List Nat) : Bool :=
  (prefixesOf p).any (fun q =>
      match doc.get? q with
      | some el => el.hasClass "card-stats-overlay"
      | none => false) ||
    (match doc.get? p with
     | some el => el.descHasClass "card-stats-overlay"
     | none => false)

/-- A mutation whose added nodes (for `childList`) or target (for
`attributes`) are all overlay-related; removed nodes are unrestricted. -/
def mutOverlayOnly (doc : Dom) : MutRec → Bool
  | .childList added _ => added.all (overlayRelated doc)
  | .attr target _ => overlayRelated doc target

end Observer

/-! ## Concrete instances used by witnesses -/

/-- A lookup environment in which the background reports no match for any
image URL (and the message channel does not throw). -/
def c1Env : Resolver.LookupEnv :=
  { cache := [], bg := fun _ => ⟨false, none⟩, bgThrows := fun _ => false }

/-- A remelt inventory image whose URL path contains numeric segments
(`52`, the category id, and `9137`) that are not the card's id. -/
def c1Img : Dom :=
  .el "IMG" [] [("src", "https://animestars.org/uploads/cards_image/52/9137.webp")] .nil

/-- The remelt image-fingerprint selector descriptor from `cardSelectors`. -/
def c1Sel : Resolver.CardSelector :=
  { selector := ".remelt__inventory-item img"
    dataIdAttribute := "src"
    targetSelector := some ".remelt__inventory-item"
    extractFromImage := true }

/-- A page state at the moment a `databaseUpdated` message arrives: one
card element already displays stats (overlay attached, processed flag
set), and the stats for card 7 are cached. -/
def c8State : Update.ContentState :=
  { cards := [⟨true, false, true⟩]
    statsCache := [(7, ⟨5, 3, 2⟩)]
    cardIdCache := [("uploads/cards_image/52/9137.webp", 7)]
    pendingCards := []
    rescanDelay := none }

/-- The burst used for the C5 analysis: 201 cards are admitted while the
overlay counter is still low, then all 201 stats fetches resolve. -/
def c5Evs : List Life.LifeEv :=
  (List.range 201).map Life.LifeEv.admitEv
    ++ (List.range 201).map Life.LifeEv.fetchOk

/-- The unlimited-page burst: each of 201 cards is admitted and its stats
fetch resolves before the next admission, so the final admissions happen
with the counter already at or past 200. -/
def c5UEvs : List Life.LifeEv :=
  (List.range 201).foldr
    (fun i acc => Life.LifeEv.admitEv i :: Life.LifeEv.fetchOk i :: acc) []

/-- A small document: `BODY` with a card element (child 0) and an overlay
subtree (child 1: `.card-stats-overlay` containing a `.card-stats`). -/
def c2Doc : Dom :=
  .el "BODY" [] []
    (.cons (.el "DIV" ["anime-cards__item"] [("data-id", "9137")] .nil)
      (.cons
        (.el "DIV" ["card-stats-overlay"] []
          (.cons (.el "DIV" ["card-stats"] [] .nil) .nil))
        .nil))

/-- An adversarial CSS environment: the catalog pathname, and oracles
claiming every node matches the card selectors, contains cards, and
matches the trade container selectors. -/
def c2Env : Observer.CssEnv :=
  { pathname := "/cards/"
    matchesCardSelector := fun _ => true
    nodeHasCardsInside := fun _ => true
    matchesTradeContainerSel := fun _ => true }

/-- A mutation batch produced by overlay work: the overlay subtree is
inserted, an attribute inside it changes, and a node is removed. -/
def c2Muts : List Observer.MutRec :=
  [ Observer.MutRec.childList [[1]] []
    , Observer.MutRec.attr [1, 0] "data-loaded"
    , Observer.MutRec.childList [] [[0]] ]

/-! ## Theorems -/

/-- C1: for a card element resolved via the image-fingerprint strategy
(`extractCardIdAsync` on a selector with `extractFromImage`), if the
dataset lookup for the normalized image URL reports no match (the cache
misses and the background reports no card), resolution returns no id, and
in particular no numeric segment of the image URL is ever returned as a
fallback card id. -/
theorem C1_fingerprint_no_numeric_fallback
    (env : Resolver.LookupEnv) (element img : Dom) (sel : Resolver.CardSelector)
    (src : String)
    (hsel : sel.extractFromImage = true) (hattr : sel.dataIdAttribute = "src")
    (himg : (if element.tag == "IMG" then some element else element.queryTag "IMG")
        = some img)
    (hsrc : img.getAttr "src" = some src)
    (hcache : env.cache.find?
        (fun p => p.fst == Resolver.normalizeImageUrl src) = none)
    (hthrow : env.bgThrows (Resolver.normalizeImageUrl src) = false)
    (hbg : Resolver.findRespId (env.bg (Resolver.normalizeImageUrl src)) = none) :
    Resolver.extractCardIdAsync env element sel = none ∧
      ∀ n ∈ Resolver.digitRuns src.toList,
        Resolver.extractCardIdAsync env element sel ≠ some n := by
  have hlook : (Resolver.findCardIdByImageUrlAsync env src).fst = none := by
    simp only [Resolver.findCardIdByImageUrlAsync, hcache, hthrow, hbg]
    simp
  have hmain : Resolver.extractCardIdAsync env element sel = none := by
    simp only [Resolver.extractCardIdAsync, hsel, hattr, himg, hsrc]
    simp [hlook]
  exact ⟨hmain, fun n _ h => by rw [hmain] at h; exact Option.noConfusion h⟩

set_option maxRecDepth 8000 in
/-- Witness for C1: the concrete remelt image above, whose URL contains
the numeric segments 52 and 9137, resolves to no id when the dataset has
no match. -/
theorem C1_fingerprint_no_numeric_fallback_witness :
    Resolver.extractCardIdAsync c1Env c1Img c1Sel = none ∧
      9137 ∈ Resolver.digitRuns
        "https://animestars.org/uploads/cards_image/52/9137.webp".toList :=
  ⟨(C1_fingerprint_no_numeric_fallback c1Env c1Img c1Img c1Sel
      "https://animestars.org/uploads/cards_image/52/9137.webp"
      rfl rfl rfl rfl (by decide) rfl rfl).1,
    by decide⟩

/-- C10: `ping` and `findCardByImage` messages have no matching case in the
shipped background's `handleMessage` and are answered by the default branch
with `{error: 'Unknown message type'}` and no `success` field; consequently
the content script's initialization check fails and every image-fingerprint
lookup against this background resolves to no id. -/
theorem C10_ping_and_findCardByImage_unhandled (env : Background.BgEnv) :
    Background.handleMessage env { mtype := "ping" }
        = { error := some "Unknown message type" } ∧
      Background.handleMessage env { mtype := "findCardByImage" }
        = { error := some "Unknown message type" } ∧
      Background.pingSucceeded
        (Background.handleMessage env { mtype := "ping" }) = false ∧
      ∀ url : String,
        (Resolver.findCardIdByImageUrlAsync
          (Background.shippedLookupEnv env) url).fst = none := by
  refine ⟨rfl, rfl, rfl, fun url => ?_⟩
  simp [Resolver.findCardIdByImageUrlAsync, Background.shippedLookupEnv,
    Background.replyToFindResp, Resolver.findRespId, Background.handleMessage]

/-- C8 counterexample: the `databaseUpdated` handler does not invalidate
the id-to-stats cache.  After the handler runs on `c8State`, the cache
still holds the stale entry for card 7, a subsequent stats resolution for
card 7 is served from the cache with zero background fetches (even though
the background now has different stats), and the card whose overlay shows
the stale stats is not re-admitted for observation. -/
theorem C8_cache_survives_update_counterexample :
    (Update.onDatabaseUpdated c8State).statsCache = [(7, ⟨5, 3, 2⟩)] ∧
      Update.resolveStats (Update.onDatabaseUpdated c8State).statsCache
        (fun _ => some ⟨9, 9, 9⟩) 7 = (some ⟨5, 3, 2⟩, 0) ∧
      ((Update.onDatabaseUpdated c8State).cards.all
        (fun c => !Update.admitsForObservation c)) = true := by
  decide

/-- C8 (amended): on a `databaseUpdated` message the core clears every
processed and observing flag and the pending set and schedules a full
re-scan after a 500ms settle delay, but the process-wide id-to-stats cache
(and the url-to-id cache) survive unchanged; a card whose overlay is still
attached is not re-admitted by the re-scan, and any card that is
re-resolved takes its stats from the retained cache with no background
fetch. -/
theorem C8_update_clears_flags_but_keeps_caches (s : Update.ContentState) :
    (Update.onDatabaseUpdated s).statsCache = s.statsCache ∧
      (Update.onDatabaseUpdated s).cardIdCache = s.cardIdCache ∧
      (Update.onDatabaseUpdated s).pendingCards = [] ∧
      (Update.onDatabaseUpdated s).rescanDelay = some 500 ∧
      (∀ c ∈ (Update.onDatabaseUpdated s).cards,
        c.processed = false ∧ c.observing = false) ∧
      (∀ c ∈ (Update.onDatabaseUpdated s).cards, c.hasOverlay = true →
        Update.admitsForObservation c = false) ∧
      ∀ (bg : Nat → Option Update.CardStats) (cardId : Nat)
        (p : Nat × Update.CardStats),
        s.statsCache.find? (fun q => q.fst == cardId) = some p →
        Update.resolveStats (Update.onDatabaseUpdated s).statsCache bg cardId
          = (some p.snd, 0) := by
  refine ⟨rfl, rfl, rfl, rfl, ?_, ?_, ?_⟩
  · intro c hc
    simp only [Update.onDatabaseUpdated, Update.clearAllProcessedFlags,
      List.mem_map] at hc
    obtain ⟨c0, _, rfl⟩ := hc
    exact ⟨rfl, rfl⟩
  · intro c hc hov
    simp only [Update.onDatabaseUpdated, Update.clearAllProcessedFlags,
      List.mem_map] at hc
    obtain ⟨c0, _, rfl⟩ := hc
    have hov0 : c0.hasOverlay = true := hov
    simp [Update.admitsForObservation, hov0]
  · intro bg cardId p hp
    have hcache : (Update.onDatabaseUpdated s).statsCache = s.statsCache := rfl
    simp [Update.resolveStats, hcache, hp]

/-- Witness for the amended C8: on the concrete state `c8State` the
handler keeps the cached stats of card 7 and serves them with no fetch. -/
theorem C8_update_clears_flags_but_keeps_caches_witness :
    (Update.onDatabaseUpdated c8State).statsCache = c8State.statsCache ∧
      Update.resolveStats (Update.onDatabaseUpdated c8State).statsCache
        (fun _ => none) 7 = (some ⟨5, 3, 2⟩, 0) := by
  have h := C8_update_clears_flags_but_keeps_caches c8State
  exact ⟨h.1, h.2.2.2.2.2.2 (fun _ => none) 7 (7, ⟨5, 3, 2⟩) (by decide)⟩

/-- C9: while the user is inactive (or the tab hidden), every batch of
newly-visible cards is queued into the pending set and nothing is
processed; on return to activity the pending set is flushed as a single
batch — each pending card processed exactly once, none before resume —
and an additional full re-scan is scheduled. -/
theorem C9_activity_gate_pause_resume :
    (∀ (s : Activity.ActState) (cards : List Nat), s.isUserActive = false →
      (Activity.actStep s (.admitEv cards)).processedLog = s.processedLog ∧
        (Activity.actStep s (.admitEv cards)).pendingCards
          = cards.foldl Activity.addPending s.pendingCards) ∧
      ∀ (s : Activity.ActState), s.isUserActive = false →
        s.wasProcessingPaused = true → s.pendingCards.Nodup →
        (∀ c : Nat, (Activity.actStep s .activity).processedLog.count c
            = s.processedLog.count c
              + (if c ∈ s.pendingCards then 1 else 0)) ∧
          (Activity.actStep s .activity).pendingCards = [] ∧
          (Activity.actStep s .activity).rescanScheduled = true := by
  constructor
  · intro s cards hinact
    simp [Activity.actStep, Activity.processVisibleCards, hinact]
  · intro s hinact hpaused hnodup
    have hstep : Activity.actStep s .activity
        = Activity.resumeProcessing { s with isUserActive := true } := by
      simp [Activity.actStep, hinact]
    have huni : Activity.resumeProcessing { s with isUserActive := true }
        = { s with
              isUserActive := true
              wasProcessingPaused := false
              pendingCards := []
              processedLog := s.processedLog ++ s.pendingCards
              rescanScheduled := true } := by
      unfold Activity.resumeProcessing
      cases hl : s.pendingCards with
      | nil => simp [Activity.processVisibleCards, hpaused, hl]
      | cons p ps => simp [Activity.processVisibleCards, hpaused, hl]
    rw [hstep, huni]
    refine ⟨?_, rfl, rfl⟩
    intro c
    by_cases hmem : c ∈ s.pendingCards
    · simp [List.count_append, hmem, List.count_eq_one_of_mem hnodup hmem]
    · simp [List.count_append, hmem, List.count_eq_zero_of_not_mem hmem]

/-- Witness for C9: the spec scenario — go inactive, queue five visible
cards, return to activity: nothing is processed while inactive, each of
the five cards is processed exactly once after resume, the pending set is
emptied and a follow-up re-scan is scheduled. -/
theorem C9_activity_gate_pause_resume_witness :
    (Activity.actRun Activity.actInit
        [.inactivity, .admitEv [1, 2, 3, 4, 5]]).processedLog = [] ∧
      ((Activity.actStep (Activity.actRun Activity.actInit
        [.inactivity, .admitEv [1, 2, 3, 4, 5]]) .activity).processedLog.count 3
          = 1) ∧
      (Activity.actStep (Activity.actRun Activity.actInit
        [.inactivity, .admitEv [1, 2, 3, 4, 5]]) .activity).pendingCards = [] ∧
      (Activity.actStep (Activity.actRun Activity.actInit
        [.inactivity, .admitEv [1, 2, 3, 4, 5]]) .activity).rescanScheduled
          = true := by
  have h := C9_activity_gate_pause_resume.2
    (Activity.actRun Activity.actInit [.inactivity, .admitEv [1, 2, 3, 4, 5]])
    (by decide) (by decide) (by decide)
  exact ⟨by decide, (h.1 3).trans (by decide), h.2.1, h.2.2⟩

/-- The scanner invariant holds initially. -/
theorem Debounce.inv_init (t0 : Nat) : Debounce.Inv (Debounce.debInit t0) := by
  simp [Debounce.Inv, Debounce.debInit]

/-- One valid step preserves the scanner invariant. -/
theorem Debounce.inv_step (s : Debounce.DebState) (e : Debounce.DebEv)
    (hInv : Debounce.Inv s) (hval : Debounce.stepOk s e = true) :
    Debounce.Inv (Debounce.debStep s e) := by
  obtain ⟨h1, h2, h3, h4, h5, h6, h7⟩ := hInv
  cases e with
  | setActive b => exact ⟨h1, h2, h3, h4, h5, h6, h7⟩
  | advance k =>
    simp only [Debounce.stepOk, List.all_eq_true, decide_eq_true_eq] at hval
    unfold Debounce.debStep Debounce.Inv
    dsimp only
    refine ⟨by omega, h2, h3, ?_, h5, ?_, h7⟩
    · intro d hd; exact hval d hd
    · intro x hx; have := h6 x hx; omega
  | invoke =>
    by_cases hlt : s.now - s.lastProcessTime < 500
    · have heq : Debounce.debStep s .invoke = s := by
        simp [Debounce.debStep, Debounce.invoke, hlt]
      rw [heq]; exact ⟨h1, h2, h3, h4, h5, h6, h7⟩
    · have hgap : s.lastProcessTime + 500 ≤ s.now := by omega
      by_cases hact : s.isUserActive
      · have heq : Debounce.debStep s .invoke
            = { s with
                  lastProcessTime := s.now
                  pending := s.pending ++ [s.now + 500] } := by
          simp [Debounce.debStep, Debounce.invoke, hlt, hact]
        rw [heq]; unfold Debounce.Inv; dsimp only
        refine ⟨le_refl _, ?_, ?_, ?_, h5, h6, ?_⟩
        · rw [List.chain'_append]
          refine ⟨h2, List.chain'_singleton _, ?_⟩
          intro x hx y hy
          simp only [List.head?_cons, Option.mem_def, Option.some_inj] at hy
          subst hy
          have hxmem : x ∈ s.pending := List.mem_of_mem_getLast? hx
          have := h3 x hxmem; omega
        · intro d hd
          rcases List.mem_append.mp hd with hd | hd
          · have := h3 d hd; omega
          · simp only [List.mem_singleton] at hd; omega
        · intro d hd
          rcases List.mem_append.mp hd with hd | hd
          · exact h4 d hd
          · simp only [List.mem_singleton] at hd; omega
        · intro x hx d hd
          rcases List.mem_append.mp hd with hd | hd
          · exact h7 x hx d hd
          · simp only [List.mem_singleton] at hd
            have := h6 x hx; omega
      · have hact' : s.isUserActive = false := by
          revert hact; cases s.isUserActive <;> simp
        have heq : Debounce.debStep s .invoke
            = { s with lastProcessTime := s.now } := by
          simp [Debounce.debStep, Debounce.invoke, hlt, hact']
        rw [heq]; unfold Debounce.Inv; dsimp only
        refine ⟨le_refl _, h2, ?_, h4, h5, ?_, h7⟩
        · intro d hd; have := h3 d hd; omega
        · intro x hx; exact h6 x hx
  | fire =>
    simp only [Debounce.stepOk] at hval
    cases hp : s.pending with
    | nil => rw [hp] at hval; simp at hval
    | cons d rest =>
      rw [hp] at hval
      simp only [List.head?_cons, decide_eq_true_eq] at hval
      have hmemd : d ∈ s.pending := by
        rw [hp]; exact List.mem_cons_self d rest
      have hda : s.now ≤ d := h4 d hmemd
      have hde : s.now = d := le_antisymm hda hval
      have hnd : ¬ s.now < d := by omega
      have h2' : List.Chain' (fun a b => a + 500 ≤ b) (d :: rest) := by
        rw [hp] at h2; exact h2
      have hrest_ch : List.Chain' (fun a b => a + 500 ≤ b) rest := h2'.tail
      haveI : IsTrans Nat (fun a b => a + 500 ≤ b) :=
        ⟨fun a b c hab hbc => by omega⟩
      have hpw := List.chain'_iff_pairwise.mp h2'
      have hrest_far : ∀ y ∈ rest, d + 500 ≤ y := (List.pairwise_cons.mp hpw).1
      by_cases hact : s.isUserActive
      · have heq : Debounce.debStep s .fire
            = { s with
                  pending := rest
                  execTimes := s.now :: s.execTimes } := by
          simp [Debounce.debStep, Debounce.fire, hp, hnd, hact]
        rw [heq]; unfold Debounce.Inv; dsimp only
        refine ⟨h1, hrest_ch, ?_, ?_, ?_, ?_, ?_⟩
        · intro y hy; exact h3 y (by rw [hp]; exact List.mem_cons_of_mem d hy)
        · intro y hy; exact h4 y (by rw [hp]; exact List.mem_cons_of_mem d hy)
        · rw [List.chain'_cons']
          refine ⟨?_, h5⟩
          intro y hy
          have hym : y ∈ s.execTimes := List.mem_of_mem_head? hy
          have := h7 y hym d hmemd
          omega
        · intro x hx
          rcases List.mem_cons.mp hx with hx | hx
          · omega
          · have := h6 x hx; omega
        · intro x hx y hy
          rcases List.mem_cons.mp hx with hx | hx
          · subst hx
            have := hrest_far y hy
            omega
          · exact h7 x hx y (by rw [hp]; exact List.mem_cons_of_mem d hy)
      · have hact' : s.isUserActive = false := by
          revert hact; cases s.isUserActive <;> simp
        have heq : Debounce.debStep s .fire = { s with pending := rest } := by
          simp [Debounce.debStep, Debounce.fire, hp, hnd, hact']
        rw [heq]; unfold Debounce.Inv; dsimp only
        refine ⟨h1, hrest_ch, ?_, ?_, h5, h6, ?_⟩
        · intro y hy; exact h3 y (by rw [hp]; exact List.mem_cons_of_mem d hy)
        · intro y hy; exact h4 y (by rw [hp]; exact List.mem_cons_of_mem d hy)
        · intro x hx y hy
          exact h7 x hx y (by rw [hp]; exact List.mem_cons_of_mem d hy)

/-- The scanner invariant holds after any valid run. -/
theorem Debounce.inv_run (evs : List Debounce.DebEv) (s : Debounce.DebState)
    (hInv : Debounce.Inv s) (hv : Debounce.validFrom s evs = true) :
    Debounce.Inv (Debounce.debRun s evs) := by
  induction evs generalizing s with
  | nil => simpa [Debounce.debRun] using hInv
  | cons e evs ih =>
    rw [Debounce.validFrom, Bool.and_eq_true] at hv
    have hstep := Debounce.inv_step s e hInv hv.1
    have hrw : Debounce.debRun s (e :: evs)
        = Debounce.debRun (Debounce.debStep s e) evs := rfl
    rw [hrw]
    exact ih _ hstep hv.2

/-- C7 counterexample: an invocation inside the 500ms window is dropped
with nothing scheduled, so a burst can yield no scan at all.  At t=10000
(user inactive) an invocation is accepted, stamps the window, and — the
user being inactive — schedules nothing; the user then becomes active and
a second invocation arrives at t=10300, inside the window: it is dropped.
After this valid burst no scan has executed and none is pending, contrary
to the claim that every in-window invocation is coalesced into a trailing
execution and at least one scan runs at or after the window's end. -/
theorem C7_in_window_invocation_dropped_counterexample :
    Debounce.validFrom (Debounce.debInit 10000)
      [.setActive false, .invoke, .setActive true, .advance 300, .invoke]
      = true ∧
      (Debounce.debRun (Debounce.debInit 10000)
        [.setActive false, .invoke, .setActive true, .advance 300, .invoke]
        ).execTimes = [] ∧
      (Debounce.debRun (Debounce.debInit 10000)
        [.setActive false, .invoke, .setActive true, .advance 300, .invoke]
        ).pending = [] := by
  refine ⟨by decide, by decide, by decide⟩

/-- C7 (amended): `processExistingCardsDebounced` keeps at least 500ms
between actual scan executions, but it is a dropping debounce, not a
coalescing one: an invocation within 500ms of the last accepted one
returns immediately with nothing scheduled; an accepted invocation stamps
the window and schedules one execution 500ms later only when the user is
active (the execution itself re-checks activity).  Hence executions are
500ms-separated in every valid run, while a burst whose window was opened
by an invocation made during inactivity can yield no scan at all. -/
theorem C7_debounce_spacing_and_drop_semantics :
    (∀ s : Debounce.DebState, s.now - s.lastProcessTime < 500 →
      Debounce.invoke s = s) ∧
      (∀ s : Debounce.DebState, 500 ≤ s.now - s.lastProcessTime →
        s.isUserActive = false →
        Debounce.invoke s = { s with lastProcessTime := s.now }) ∧
      (∀ s : Debounce.DebState, 500 ≤ s.now - s.lastProcessTime →
        s.isUserActive = true →
        Debounce.invoke s
          = { s with
                lastProcessTime := s.now
                pending := s.pending ++ [s.now + 500] }) ∧
      ∀ (t0 : Nat) (evs : List Debounce.DebEv),
        Debounce.validFrom (Debounce.debInit t0) evs = true →
        List.Chain' (fun a b => b + 500 ≤ a)
          (Debounce.debRun (Debounce.debInit t0) evs).execTimes := by
  refine ⟨?_, ?_, ?_, ?_⟩
  · intro s h
    simp [Debounce.invoke, h]
  · intro s h hact
    have hlt : ¬ s.now - s.lastProcessTime < 500 := by omega
    simp [Debounce.invoke, hlt, hact]
  · intro s h hact
    have hlt : ¬ s.now - s.lastProcessTime < 500 := by omega
    simp [Debounce.invoke, hlt, hact]
  · intro t0 evs hv
    have h := Debounce.inv_run evs (Debounce.debInit t0)
      (Debounce.inv_init t0) hv
    exact h.2.2.2.2.1

/-- Witness for the amended C7: a dropped in-window invocation, and a
valid run whose execution times are 500ms-separated. -/
theorem C7_debounce_spacing_and_drop_semantics_witness :
    Debounce.invoke ⟨1200, 1000, true, [], []⟩
        = (⟨1200, 1000, true, [], []⟩ : Debounce.DebState) ∧
      List.Chain' (fun a b => b + 500 ≤ a)
        (Debounce.debRun (Debounce.debInit 1000)
          [.invoke, .advance 500, .fire]).execTimes :=
  ⟨C7_debounce_spacing_and_drop_semantics.1 ⟨1200, 1000, true, [], []⟩
      (by decide),
    C7_debounce_spacing_and_drop_semantics.2.2.2 1000
      [.invoke, .advance 500, .fire] (by decide)⟩

/-- A navigation trigger preserves the coordinator invariant. -/
theorem Nav.inv_trigger (s : Nav.NavState) (h : Nav.NavInv s) :
    Nav.NavInv (Nav.handleNavigationTrigger s) := by
  obtain ⟨h1, h2, h3, h4⟩ := h
  by_cases hp : s.isNavigationProcessing
  · have heq : Nav.handleNavigationTrigger s
        = { s with retryDeadline := some (s.now + 300) } := by
      simp [Nav.handleNavigationTrigger, hp]
    rw [heq]
    refine ⟨fun hproc => h1 hproc, ?_, fun d hd => h3 d hd, fun d hd => h4 d hd⟩
    intro d hd
    have hd' : some (s.now + 300) = some d := hd
    injection hd' with hd''
    show s.now ≤ d
    omega
  · have hp' : s.isNavigationProcessing = false := by
      revert hp; cases s.isNavigationProcessing <;> simp
    by_cases hr : s.isRemelt
    · have heq : Nav.handleNavigationTrigger s
          = { s with
                lastNavigationStart := s.now
                navigationCounter := s.navigationCounter + 1
                flagsCleared := s.flagsCleared + 1
                overlayRemovals := s.overlayRemovals + 1
                watchdogDeadline := none
                isNavigationProcessing := false
                completed := s.completed + 1 } := by
        simp [Nav.handleNavigationTrigger, hp', hr]
      rw [heq]
      refine ⟨fun hproc => by simp at hproc, fun d hd => h2 d hd, ?_,
        fun d hd => h4 d hd⟩
      intro d hd
      have hd' : (none : Option Nat) = some d := hd
      exact Option.noConfusion hd'
    · have hr' : s.isRemelt = false := by
        revert hr; cases s.isRemelt <;> simp
      have heq : Nav.handleNavigationTrigger s
          = { s with
                isNavigationProcessing := true
                lastNavigationStart := s.now
                navigationCounter := s.navigationCounter + 1
                flagsCleared := s.flagsCleared + 1
                overlayRemovals := s.overlayRemovals + 1
                watchdogDeadline := some (s.now + 5000)
                rebuildDeadline := some (s.now + 100) } := by
        simp [Nav.handleNavigationTrigger, hp', hr']
      rw [heq]
      refine ⟨fun _ => rfl, fun d hd => h2 d hd, ?_, ?_⟩
      · intro d hd
        have hd' : some (s.now + 5000) = some d := hd
        injection hd' with hd''
        show s.now ≤ d
        omega
      · intro d hd
        have hd' : some (s.now + 100) = some d := hd
        injection hd' with hd''
        show s.now ≤ d
        omega

/-- One valid step preserves the coordinator invariant. -/
theorem Nav.navInv_step (s : Nav.NavState) (e : Nav.NavEv)
    (h : Nav.NavInv s) (hval : Nav.navStepOk s e = true) :
    Nav.NavInv (Nav.navStep s e) := by
  obtain ⟨h1, h2, h3, h4⟩ := h
  cases e with
  | trigger => exact Nav.inv_trigger s ⟨h1, h2, h3, h4⟩
  | fireRetry =>
    cases hrd : s.retryDeadline with
    | none =>
      have heq : Nav.navStep s .fireRetry = s := by
        simp [Nav.navStep, Nav.fireRetry, hrd]
      rw [heq]; exact ⟨h1, h2, h3, h4⟩
    | some d =>
      by_cases hdue : s.now < d
      · have heq : Nav.navStep s .fireRetry = s := by
          simp [Nav.navStep, Nav.fireRetry, hrd, hdue]
        rw [heq]; exact ⟨h1, h2, h3, h4⟩
      · have heq : Nav.navStep s .fireRetry
            = Nav.handleNavigationTrigger { s with retryDeadline := none } := by
          simp [Nav.navStep, Nav.fireRetry, hrd, hdue]
        rw [heq]
        apply Nav.inv_trigger
        refine ⟨h1, ?_, fun x hx => h3 x hx, fun x hx => h4 x hx⟩
        intro x hx
        have hx' : (none : Option Nat) = some x := hx
        exact Option.noConfusion hx'
  | fireWatchdog =>
    cases hwd : s.watchdogDeadline with
    | none =>
      have heq : Nav.navStep s .fireWatchdog = s := by
        simp [Nav.navStep, Nav.fireWatchdog, hwd]
      rw [heq]; exact ⟨h1, h2, h3, h4⟩
    | some d =>
      by_cases hdue : s.now < d
      · have heq : Nav.navStep s .fireWatchdog = s := by
          simp [Nav.navStep, Nav.fireWatchdog, hwd, hdue]
        rw [heq]; exact ⟨h1, h2, h3, h4⟩
      · have heq : Nav.navStep s .fireWatchdog
            = { s with
                  watchdogDeadline := none
                  isNavigationProcessing := false } := by
          simp [Nav.navStep, Nav.fireWatchdog, hwd, hdue]
        rw [heq]
        refine ⟨fun hproc => by simp at hproc, fun x hx => h2 x hx, ?_,
          fun x hx => h4 x hx⟩
        intro x hx
        have hx' : (none : Option Nat) = some x := hx
        exact Option.noConfusion hx'
  | fireRebuild =>
    cases hbd : s.rebuildDeadline with
    | none =>
      have heq : Nav.navStep s .fireRebuild = s := by
        simp [Nav.navStep, Nav.fireRebuild, hbd]
      rw [heq]; exact ⟨h1, h2, h3, h4⟩
    | some d =>
      by_cases hdue : s.now < d
      · have heq : Nav.navStep s .fireRebuild = s := by
          simp [Nav.navStep, Nav.fireRebuild, hbd, hdue]
        rw [heq]; exact ⟨h1, h2, h3, h4⟩
      · have heq : Nav.navStep s .fireRebuild
            = { s with
                  rebuildDeadline := none
                  watchdogDeadline := none
                  isNavigationProcessing := false
                  completed := s.completed + 1 } := by
          simp [Nav.navStep, Nav.fireRebuild, hbd, hdue]
        rw [heq]
        refine ⟨fun hproc => by simp at hproc, fun x hx => h2 x hx, ?_, ?_⟩
        · intro x hx
          have hx' : (none : Option Nat) = some x := hx
          exact Option.noConfusion hx'
        · intro x hx
          have hx' : (none : Option Nat) = some x := hx
          exact Option.noConfusion hx'
  | advance k =>
    simp only [Nav.navStepOk, Bool.and_eq_true] at hval
    obtain ⟨⟨hv1, hv2⟩, hv3⟩ := hval
    refine ⟨fun hproc => h1 hproc, ?_, ?_, ?_⟩
    · intro d hd
      have hd0 : s.retryDeadline = some d := hd
      rw [hd0] at hv1
      simp only [Nav.allowsTime, decide_eq_true_eq] at hv1
      exact hv1
    · intro d hd
      have hd0 : s.watchdogDeadline = some d := hd
      rw [hd0] at hv2
      simp only [Nav.allowsTime, decide_eq_true_eq] at hv2
      exact hv2
    · intro d hd
      have hd0 : s.rebuildDeadline = some d := hd
      rw [hd0] at hv3
      simp only [Nav.allowsTime, decide_eq_true_eq] at hv3
      exact hv3

/-- The coordinator invariant holds after any valid run. -/
theorem Nav.navInv_run (evs : List Nav.NavEv) (s : Nav.NavState)
    (h : Nav.NavInv s) (hv : Nav.navValidFrom s evs = true) :
    Nav.NavInv (Nav.navRun s evs) := by
  induction evs generalizing s with
  | nil => simpa [Nav.navRun] using h
  | cons e evs ih =>
    rw [Nav.navValidFrom, Bool.and_eq_true] at hv
    have hstep := Nav.navInv_step s e h hv.1
    have hrw : Nav.navRun s (e :: evs)
        = Nav.navRun (Nav.navStep s e) evs := rfl
    rw [hrw]
    exact ih _ hstep hv.2

/-- C6: navigation rebuilds are single-flight with queued retries and a
watchdog.  (1) A trigger arriving while a rebuild is in flight performs no
rebuild work — it only replaces the queued retry timeout with one 300ms
out.  (2) A due retry is never dropped: it either starts the queued
rebuild (when the flag is clear) or re-queues itself another 300ms out.
(3) In every valid run, whenever the in-flight flag is set the clock is
within 5 seconds of the rebuild's start — the watchdog forces the flag
clear, so a stuck rebuild can never permanently wedge the coordinator. -/
theorem C6_navigation_single_flight_and_watchdog :
    (∀ s : Nav.NavState, s.isNavigationProcessing = true →
      Nav.handleNavigationTrigger s
        = { s with retryDeadline := some (s.now + 300) }) ∧
      (∀ (s : Nav.NavState) (d : Nat), s.retryDeadline = some d →
        d ≤ s.now →
        (s.isNavigationProcessing = false →
          (Nav.fireRetry s).navigationCounter = s.navigationCounter + 1) ∧
          (s.isNavigationProcessing = true →
            (Nav.fireRetry s).retryDeadline = some (s.now + 300))) ∧
      ∀ (t0 : Nat) (remelt : Bool) (evs : List Nav.NavEv),
        Nav.navValidFrom (Nav.navInit t0 remelt) evs = true →
        (Nav.navRun (Nav.navInit t0 remelt) evs).isNavigationProcessing = true →
        (Nav.navRun (Nav.navInit t0 remelt) evs).now
          ≤ (Nav.navRun (Nav.navInit t0 remelt) evs).lastNavigationStart
              + 5000 := by
  refine ⟨?_, ?_, ?_⟩
  · intro s hp
    simp [Nav.handleNavigationTrigger, hp]
  · intro s d hrd hdue
    have hnd : ¬ s.now < d := by omega
    constructor
    · intro hp'
      have heq : Nav.fireRetry s
          = Nav.handleNavigationTrigger { s with retryDeadline := none } := by
        simp [Nav.fireRetry, hrd, hnd]
      rw [heq]
      unfold Nav.handleNavigationTrigger
      simp only [hp', Bool.false_eq_true, if_false]
      by_cases hr : s.isRemelt
      · simp [hr]
      · have hr' : s.isRemelt = false := by
          revert hr; cases s.isRemelt <;> simp
        simp [hr']
    · intro hp'
      have heq : Nav.fireRetry s
          = Nav.handleNavigationTrigger { s with retryDeadline := none } := by
        simp [Nav.fireRetry, hrd, hnd]
      rw [heq]
      unfold Nav.handleNavigationTrigger
      simp [hp']
  · intro t0 remelt evs hv hp
    have hInv : Nav.NavInv (Nav.navInit t0 remelt) := by
      refine ⟨fun hpp => by simp [Nav.navInit] at hpp, ?_, ?_, ?_⟩ <;>
        intro d hd <;> simp [Nav.navInit] at hd
    have h := Nav.navInv_run evs (Nav.navInit t0 remelt) hInv hv
    obtain ⟨h1, h2, h3, h4⟩ := h
    have hw := h1 hp
    have := h3 _ hw
    omega

/-- Witness for C6: from a fresh non-remelt page, fire one trigger (the
rebuild is now in flight), and check — a second trigger only queues a
retry 300ms out, and after 100ms of valid time passing the in-flight flag
is still within its 5-second watchdog budget. -/
theorem C6_navigation_single_flight_and_watchdog_witness :
    (Nav.handleNavigationTrigger
        (Nav.navRun (Nav.navInit 1000 false) [.trigger])).retryDeadline
      = some 1300 ∧
      (Nav.navRun (Nav.navInit 1000 false) [.trigger, .advance 100]).now
        ≤ (Nav.navRun (Nav.navInit 1000 false)
            [.trigger, .advance 100]).lastNavigationStart + 5000 := by
  constructor
  · have h := C6_navigation_single_flight_and_watchdog.1
      (Nav.navRun (Nav.navInit 1000 false) [.trigger]) (by decide)
    rw [h]
    decide
  · exact C6_navigation_single_flight_and_watchdog.2.2 1000 false
      [.trigger, .advance 100] (by decide) (by decide)

/-- Membership from a successful index lookup. -/
theorem list_mem_of_idx {α : Type} {l : List α} {i : Nat} {a : α}
    (h : l[i]? = some a) : a ∈ l :=
  List.get?_mem (by simpa [List.get?_eq_getElem?] using h)

/-- Setting an index to an element already there leaves a list unchanged. -/
theorem list_set_same {α : Type} (l : List α) (i : Nat) (a : α)
    (h : l[i]? = some a) : l.set i a = l := by
  induction l generalizing i with
  | nil => simp at h
  | cons x xs ih =>
    cases i with
    | zero =>
      simp only [List.getElem?_cons_zero, Option.some_inj] at h
      simp [h]
    | succ n =>
      simp only [List.getElem?_cons_succ] at h
      simp [ih n h]

/-- Bounded overlay counts survive a `List.set` with a bounded element. -/
theorem Life.counts_set (l : List Life.ElemState) (i : Nat)
    (a : Life.ElemState) (h : ∀ x ∈ l, x.overlayCount ≤ 1)
    (ha : a.overlayCount ≤ 1) :
    ∀ x ∈ l.set i a, x.overlayCount ≤ 1 := by
  intro x hx
  rcases List.mem_or_eq_of_mem_set hx with hx | hx
  · exact h x hx
  · subst hx; exact ha

/-- The post-resolution insertion attempt keeps every element's overlay
count at most 1: the built overlay is only inserted into the element when
its subtree holds no overlay. -/
theorem Life.counts_insertAttempt (p : Life.PageState) (i : Nat)
    (h : ∀ x ∈ p.elems, x.overlayCount ≤ 1) :
    ∀ x ∈ (Life.insertAttempt p i).elems, x.overlayCount ≤ 1 := by
  cases hgi : p.elems[i]? with
  | none => simpa [Life.insertAttempt, hgi] using h
  | some e =>
    cases hsel : e.hasSelector with
    | false => simpa [Life.insertAttempt, hgi, hsel] using h
    | true =>
      cases hov : e.overlayCount with
      | succ n => simpa [Life.insertAttempt, hgi, hsel, hov] using h
      | zero =>
        cases hself : e.insertIntoSelf with
        | false => simpa [Life.insertAttempt, hgi, hsel, hov, hself] using h
        | true =>
          have : (Life.insertAttempt p i).elems
              = p.elems.set i { e with overlayCount := e.overlayCount + 1 } := by
            simp [Life.insertAttempt, hgi, hsel, hov, hself]
          rw [this]
          exact Life.counts_set _ _ _ h (by simp [hov])

/-- One admission keeps every element's overlay count at most 1. -/
theorem Life.counts_admit (p : Life.PageState) (i : Nat)
    (h : ∀ x ∈ p.elems, x.overlayCount ≤ 1) :
    ∀ x ∈ (Life.admitStep p i).elems, x.overlayCount ≤ 1 := by
  cases hgi : p.elems[i]? with
  | none => simpa [Life.admitStep, hgi] using h
  | some e =>
    have hce : e.overlayCount ≤ 1 := h e (list_mem_of_idx hgi)
    cases hov : e.overlayCount with
    | succ n => simpa [Life.admitStep, hgi, hov] using h
    | zero =>
      by_cases hcap : (!p.unlimited && decide (p.totalCounter ≥ 200)) = true
      · simpa [Life.admitStep, hgi, hov, hcap] using h
      · have hcap' : (!p.unlimited && decide (p.totalCounter ≥ 200)) = false := by
          revert hcap
          cases (!p.unlimited && decide (p.totalCounter ≥ 200)) <;> simp
        cases hatt : e.attached with
        | false => simpa [Life.admitStep, hgi, hov, hcap', hatt] using h
        | true =>
          by_cases hrg : (p.isRemelt && e.remeltGuard) = true
          · simpa [Life.admitStep, hgi, hov, hcap', hatt, hrg] using h
          · have hrg' : (p.isRemelt && e.remeltGuard) = false := by
              revert hrg
              cases (p.isRemelt && e.remeltGuard) <;> simp
            cases hrm : p.isRemelt with
            | true =>
              have hrgf : e.remeltGuard = false := by
                revert hrg'
                rw [hrm]
                cases e.remeltGuard <;> simp
              cases hpr : e.processed with
              | true =>
                have : (Life.admitStep p i).elems
                    = p.elems.set i { e with remeltGuard := true } := by
                  simp [Life.admitStep, hgi, hov, hcap', hatt, hrm, hrgf, hpr]
                rw [this]
                exact Life.counts_set _ _ _ h (by simp [hov])
              | false =>
                cases hsc : e.statsCached with
                | true =>
                  have : Life.admitStep p i
                      = Life.insertAttempt
                          { p with elems := p.elems.set i ({ e with remeltGuard := true, processed := true }) }
                          i := by
                    simp [Life.admitStep, hgi, hov, hcap', hatt, hrm, hrgf, hpr, hsc]
                  rw [this]
                  exact Life.counts_insertAttempt _ _
                    (Life.counts_set _ _ _ h (by simp [hov]))
                | false =>
                  have : (Life.admitStep p i).elems
                      = p.elems.set i ({ e with remeltGuard := true, processed := true, pendingFetches := e.pendingFetches + 1 }) := by
                    simp [Life.admitStep, hgi, hov, hcap', hatt, hrm, hrgf, hpr, hsc]
                  rw [this]
                  exact Life.counts_set _ _ _ h (by simp [hov])
            | false =>
              cases hpr : e.processed with
              | true =>
                have : (Life.admitStep p i).elems = p.elems.set i e := by
                  simp [Life.admitStep, hgi, hov, hcap', hatt, hrm, hpr]
                rw [this]
                exact Life.counts_set _ _ _ h (by simp [hov])
              | false =>
                cases hsc : e.statsCached with
                | true =>
                  have : Life.admitStep p i
                      = Life.insertAttempt
                          { p with elems := p.elems.set i ({ e with processed := true }) } i := by
                    simp [Life.admitStep, hgi, hov, hcap', hatt, hrm, hpr, hsc]
                  rw [this]
                  exact Life.counts_insertAttempt _ _
                    (Life.counts_set _ _ _ h (by simp [hov]))
                | false =>
                  have : (Life.admitStep p i).elems
                      = p.elems.set i ({ e with processed := true, pendingFetches := e.pendingFetches + 1 }) := by
                    simp [Life.admitStep, hgi, hov, hcap', hatt, hrm, hpr, hsc]
                  rw [this]
                  exact Life.counts_set _ _ _ h (by simp [hov])

/-- Any single lifecycle event keeps every element's overlay count at
most 1. -/
theorem Life.counts_step (p : Life.PageState) (e : Life.LifeEv)
    (h : ∀ x ∈ p.elems, x.overlayCount ≤ 1) :
    ∀ x ∈ (Life.lifeStep p e).elems, x.overlayCount ≤ 1 := by
  cases e with
  | admitEv i => exact Life.counts_admit p i h
  | fetchOk i =>
    show ∀ x ∈ (Life.fetchOkStep p i).elems, x.overlayCount ≤ 1
    cases hgi : p.elems[i]? with
    | none => simpa [Life.fetchOkStep, hgi] using h
    | some e =>
      have hce : e.overlayCount ≤ 1 := h e (list_mem_of_idx hgi)
      cases hpf : e.pendingFetches with
      | zero => simpa [Life.fetchOkStep, hgi, hpf] using h
      | succ m =>
        have : Life.fetchOkStep p i
            = Life.insertAttempt
                { p with elems := p.elems.set i ({ e with pendingFetches := e.pendingFetches - 1, statsCached := true }) } i := by
          simp [Life.fetchOkStep, hgi, hpf]
        rw [this]
        exact Life.counts_insertAttempt _ _
          (Life.counts_set _ _ _ h (by simpa using hce))
  | fetchFail i =>
    show ∀ x ∈ (Life.fetchFailStep p i).elems, x.overlayCount ≤ 1
    cases hgi : p.elems[i]? with
    | none => simpa [Life.fetchFailStep, hgi] using h
    | some e =>
      have hce : e.overlayCount ≤ 1 := h e (list_mem_of_idx hgi)
      cases hpf : e.pendingFetches with
      | zero => simpa [Life.fetchFailStep, hgi, hpf] using h
      | succ m =>
        have : (Life.fetchFailStep p i).elems
            = p.elems.set i { e with pendingFetches := e.pendingFetches - 1 } := by
          simp [Life.fetchFailStep, hgi, hpf]
        rw [this]
        exact Life.counts_set _ _ _ h (by simpa using hce)
  | clearFlags =>
    intro x hx
    simp only [Life.lifeStep, Life.clearFlagsStep, List.mem_map] at hx
    obtain ⟨y, hy, rfl⟩ := hx
    simpa using h y hy
  | removeAllOverlays =>
    intro x hx
    simp only [Life.lifeStep, Life.removeAllStep, List.mem_map] at hx
    obtain ⟨y, hy, rfl⟩ := hx
    simp
  | detach i =>
    show ∀ x ∈ (Life.detachStep p i).elems, x.overlayCount ≤ 1
    cases hgi : p.elems[i]? with
    | none => simpa [Life.detachStep, hgi] using h
    | some e =>
      have hce : e.overlayCount ≤ 1 := h e (list_mem_of_idx hgi)
      have : (Life.detachStep p i).elems
          = p.elems.set i { e with attached := false } := by
        simp [Life.detachStep, hgi]
      rw [this]
      exact Life.counts_set _ _ _ h (by simpa using hce)
  | reattach i =>
    show ∀ x ∈ (Life.reattachStep p i).elems, x.overlayCount ≤ 1
    cases hgi : p.elems[i]? with
    | none => simpa [Life.reattachStep, hgi] using h
    | some e =>
      have hce : e.overlayCount ≤ 1 := h e (list_mem_of_idx hgi)
      have : (Life.reattachStep p i).elems
          = p.elems.set i { e with attached := true } := by
        simp [Life.reattachStep, hgi]
      rw [this]
      exact Life.counts_set _ _ _ h (by simpa using hce)
  | clearRemeltGuard i =>
    show ∀ x ∈ (Life.clearGuardStep p i).elems, x.overlayCount ≤ 1
    cases hgi : p.elems[i]? with
    | none => simpa [Life.clearGuardStep, hgi] using h
    | some e =>
      have hce : e.overlayCount ≤ 1 := h e (list_mem_of_idx hgi)
      have : (Life.clearGuardStep p i).elems
          = p.elems.set i { e with remeltGuard := false } := by
        simp [Life.clearGuardStep, hgi]
      rw [this]
      exact Life.counts_set _ _ _ h (by simpa using hce)
  | cleanup =>
    show ∀ x ∈ (Life.cleanupStep p).elems, x.overlayCount ≤ 1
    unfold Life.cleanupStep
    by_cases hc : (!p.unlimited && decide (p.totalCounter > 200)) = true
    · simpa [hc] using h
    · have hc' : (!p.unlimited && decide (p.totalCounter > 200)) = false := by
        revert hc
        cases (!p.unlimited && decide (p.totalCounter > 200)) <;> simp
      simpa [hc'] using h

/-- Bounded overlay counts are preserved along any event list. -/
theorem Life.counts_run (evs : List Life.LifeEv) (p : Life.PageState)
    (h : ∀ x ∈ p.elems, x.overlayCount ≤ 1) :
    ∀ x ∈ (Life.lifeRun p evs).elems, x.overlayCount ≤ 1 := by
  induction evs generalizing p with
  | nil => simpa [Life.lifeRun] using h
  | cons e evs ih =>
    have hrw : Life.lifeRun p (e :: evs)
        = Life.lifeRun (Life.lifeStep p e) evs := rfl
    rw [hrw]
    exact ih _ (Life.counts_step p e h)

/-- The insertion attempt preserves `liveOverlays ≤ currentOverlaysCount`
(a discarded duplicate bumps only the counter; an insertion bumps both). -/
theorem Life.live_insertAttempt (p : Life.PageState) (i : Nat)
    (h : p.liveOverlays ≤ p.totalCounter) :
    (Life.insertAttempt p i).liveOverlays
      ≤ (Life.insertAttempt p i).totalCounter := by
  cases hgi : p.elems[i]? with
  | none => simpa [Life.insertAttempt, hgi] using h
  | some e =>
    cases hsel : e.hasSelector with
    | false => simpa [Life.insertAttempt, hgi, hsel] using h
    | true =>
      cases hov : e.overlayCount with
      | succ n =>
        have heq : Life.insertAttempt p i
            = { p with totalCounter := p.totalCounter + 1 } := by
          simp [Life.insertAttempt, hgi, hsel, hov]
        rw [heq]
        show p.liveOverlays ≤ p.totalCounter + 1
        omega
      | zero =>
        cases hself : e.insertIntoSelf with
        | true =>
          have heq : Life.insertAttempt p i
              = { p with
                    elems := p.elems.set i ({ e with overlayCount := e.overlayCount + 1 })
                    liveOverlays := p.liveOverlays + 1
                    totalCounter := p.totalCounter + 1 } := by
            simp [Life.insertAttempt, hgi, hsel, hov, hself]
          rw [heq]
          show p.liveOverlays + 1 ≤ p.totalCounter + 1
          omega
        | false =>
          have heq : Life.insertAttempt p i
              = { p with
                    liveOverlays := p.liveOverlays + 1
                    totalCounter := p.totalCounter + 1 } := by
            simp [Life.insertAttempt, hgi, hsel, hov, hself]
          rw [heq]
          show p.liveOverlays + 1 ≤ p.totalCounter + 1
          omega

/-- One admission preserves `liveOverlays ≤ currentOverlaysCount`. -/
theorem Life.live_admit (p : Life.PageState) (i : Nat)
    (h : p.liveOverlays ≤ p.totalCounter) :
    (Life.admitStep p i).liveOverlays ≤ (Life.admitStep p i).totalCounter := by
  cases hgi : p.elems[i]? with
  | none => simpa [Life.admitStep, hgi] using h
  | some e =>
    cases hov : e.overlayCount with
    | succ n => simpa [Life.admitStep, hgi, hov] using h
    | zero =>
      by_cases hcap : (!p.unlimited && decide (p.totalCounter ≥ 200)) = true
      · simpa [Life.admitStep, hgi, hov, hcap] using h
      · have hcap' : (!p.unlimited && decide (p.totalCounter ≥ 200)) = false := by
          revert hcap
          cases (!p.unlimited && decide (p.totalCounter ≥ 200)) <;> simp
        cases hatt : e.attached with
        | false => simpa [Life.admitStep, hgi, hov, hcap', hatt] using h
        | true =>
          by_cases hrg : (p.isRemelt && e.remeltGuard) = true
          · simpa [Life.admitStep, hgi, hov, hcap', hatt, hrg] using h
          · have hrg' : (p.isRemelt && e.remeltGuard) = false := by
              revert hrg
              cases (p.isRemelt && e.remeltGuard) <;> simp
            cases hrm : p.isRemelt with
            | true =>
              have hrgf : e.remeltGuard = false := by
                revert hrg'
                rw [hrm]
                cases e.remeltGuard <;> simp
              cases hpr : e.processed with
              | true =>
                have heq : Life.admitStep p i
                    = { p with elems := p.elems.set i ({ e with remeltGuard := true }) } := by
                  simp [Life.admitStep, hgi, hov, hcap', hatt, hrm, hrgf, hpr]
                rw [heq]
                exact h
              | false =>
                cases hsc : e.statsCached with
                | true =>
                  have heq : Life.admitStep p i
                      = Life.insertAttempt
                          { p with elems := p.elems.set i ({ e with remeltGuard := true, processed := true }) }
                          i := by
                    simp [Life.admitStep, hgi, hov, hcap', hatt, hrm, hrgf, hpr, hsc]
                  rw [heq]
                  exact Life.live_insertAttempt _ _ h
                | false =>
                  have heq : Life.admitStep p i
                      = { p with elems := p.elems.set i ({ e with remeltGuard := true, processed := true, pendingFetches := e.pendingFetches + 1 }) } := by
                    simp [Life.admitStep, hgi, hov, hcap', hatt, hrm, hrgf, hpr, hsc]
                  rw [heq]
                  exact h
            | false =>
              cases hpr : e.processed with
              | true =>
                have heq : Life.admitStep p i
                    = { p with elems := p.elems.set i e } := by
                  simp [Life.admitStep, hgi, hov, hcap', hatt, hrm, hpr]
                rw [heq]
                exact h
              | false =>
                cases hsc : e.statsCached with
                | true =>
                  have heq : Life.admitStep p i
                      = Life.insertAttempt
                          { p with elems := p.elems.set i ({ e with processed := true }) } i := by
                    simp [Life.admitStep, hgi, hov, hcap', hatt, hrm, hpr, hsc]
                  rw [heq]
                  exact Life.live_insertAttempt _ _ h
                | false =>
                  have heq : Life.admitStep p i
                      = { p with elems := p.elems.set i ({ e with processed := true, pendingFetches := e.pendingFetches + 1 }) } := by
                    simp [Life.admitStep, hgi, hov, hcap', hatt, hrm, hpr, hsc]
                  rw [heq]
                  exact h

/-- Any single lifecycle event preserves `liveOverlays ≤
currentOverlaysCount`. -/
theorem Life.live_step (p : Life.PageState) (e : Life.LifeEv)
    (h : p.liveOverlays ≤ p.totalCounter) :
    (Life.lifeStep p e).liveOverlays ≤ (Life.lifeStep p e).totalCounter := by
  cases e with
  | admitEv i => exact Life.live_admit p i h
  | fetchOk i =>
    show (Life.fetchOkStep p i).liveOverlays ≤ (Life.fetchOkStep p i).totalCounter
    cases hgi : p.elems[i]? with
    | none => simpa [Life.fetchOkStep, hgi] using h
    | some e =>
      cases hpf : e.pendingFetches with
      | zero => simpa [Life.fetchOkStep, hgi, hpf] using h
      | succ m =>
        have heq : Life.fetchOkStep p i
            = Life.insertAttempt
                { p with elems := p.elems.set i ({ e with pendingFetches := e.pendingFetches - 1, statsCached := true }) } i := by
          simp [Life.fetchOkStep, hgi, hpf]
        rw [heq]
        exact Life.live_insertAttempt _ _ h
  | fetchFail i =>
    show (Life.fetchFailStep p i).liveOverlays ≤ (Life.fetchFailStep p i).totalCounter
    cases hgi : p.elems[i]? with
    | none => simpa [Life.fetchFailStep, hgi] using h
    | some e =>
      cases hpf : e.pendingFetches with
      | zero => simpa [Life.fetchFailStep, hgi, hpf] using h
      | succ m =>
        have heq : (Life.fetchFailStep p i)
            = { p with elems := p.elems.set i ({ e with pendingFetches := e.pendingFetches - 1 }) } := by
          simp [Life.fetchFailStep, hgi, hpf]
        rw [heq]
        exact h
  | clearFlags => exact h
  | removeAllOverlays =>
    show (Life.removeAllStep p).liveOverlays ≤ (Life.removeAllStep p).totalCounter
    simp [Life.removeAllStep]
  | detach i =>
    show (Life.detachStep p i).liveOverlays ≤ (Life.detachStep p i).totalCounter
    cases hgi : p.elems[i]? with
    | none => simpa [Life.detachStep, hgi] using h
    | some e =>
      have heq : Life.detachStep p i
          = { p with elems := p.elems.set i ({ e with attached := false }) } := by
        simp [Life.detachStep, hgi]
      rw [heq]
      exact h
  | reattach i =>
    show (Life.reattachStep p i).liveOverlays ≤ (Life.reattachStep p i).totalCounter
    cases hgi : p.elems[i]? with
    | none => simpa [Life.reattachStep, hgi] using h
    | some e =>
      have heq : Life.reattachStep p i
          = { p with elems := p.elems.set i ({ e with attached := true }) } := by
        simp [Life.reattachStep, hgi]
      rw [heq]
      exact h
  | clearRemeltGuard i =>
    show (Life.clearGuardStep p i).liveOverlays ≤ (Life.clearGuardStep p i).totalCounter
    cases hgi : p.elems[i]? with
    | none => simpa [Life.clearGuardStep, hgi] using h
    | some e =>
      have heq : Life.clearGuardStep p i
          = { p with elems := p.elems.set i ({ e with remeltGuard := false }) } := by
        simp [Life.clearGuardStep, hgi]
      rw [heq]
      exact h
  | cleanup =>
    show (Life.cleanupStep p).liveOverlays ≤ (Life.cleanupStep p).totalCounter
    unfold Life.cleanupStep
    by_cases hc : (!p.unlimited && decide (p.totalCounter > 200)) = true
    · simp only [hc, if_pos]
      show p.liveOverlays - min (p.totalCounter - 200) p.liveOverlays
          ≤ p.totalCounter - min (p.totalCounter - 200) p.liveOverlays
      by_cases hm : p.totalCounter - 200 ≤ p.liveOverlays
      · rw [Nat.min_eq_left hm]
        omega
      · have hm' : p.liveOverlays ≤ p.totalCounter - 200 := by omega
        rw [Nat.min_eq_right hm']
        omega
    · have hc' : (!p.unlimited && decide (p.totalCounter > 200)) = false := by
        revert hc
        cases (!p.unlimited && decide (p.totalCounter > 200)) <;> simp
      simpa [hc'] using h

/-- `liveOverlays ≤ currentOverlaysCount` holds along any run. -/
theorem Life.live_run (evs : List Life.LifeEv) (p : Life.PageState)
    (h : p.liveOverlays ≤ p.totalCounter) :
    (Life.lifeRun p evs).liveOverlays ≤ (Life.lifeRun p evs).totalCounter := by
  induction evs generalizing p with
  | nil => simpa [Life.lifeRun] using h
  | cons e evs ih =>
    have hrw : Life.lifeRun p (e :: evs)
        = Life.lifeRun (Life.lifeStep p e) evs := rfl
    rw [hrw]
    exact ih _ (Life.live_step p e h)

/-- C3: for every card element, at most one overlay node is a descendant
of that element at any time: along every interleaving of admissions,
fetch resolutions, flag clears, rebuild removals, detachments and sweeps
— in particular admissions triggered near-simultaneously from the
mutation-driven re-scan and the navigation trigger — each element's
overlay-descendant count stays at most 1, enforced by `insertOverlay`'s
atomic duplicate check. -/
theorem C3_at_most_one_overlay_per_card_element
    (evs : List Life.LifeEv) (n : Nat) (u r s : Bool) (i : Nat) :
    (((Life.lifeRun (Life.initPage n u r s) evs).elems[i]?).map
        Life.ElemState.overlayCount).getD 0 ≤ 1 := by
  have h0 : ∀ x ∈ (Life.initPage n u r s).elems, x.overlayCount ≤ 1 := by
    intro x hx
    have hx' : x ∈ List.replicate n (Life.mkElem s) := by
      simpa [Life.initPage] using hx
    have := List.eq_of_mem_replicate hx'
    subst this
    simp [Life.mkElem]
  have h := Life.counts_run evs _ h0
  cases hgi : (Life.lifeRun (Life.initPage n u r s) evs).elems[i]? with
  | none => simp
  | some e => simpa using h e (list_mem_of_idx hgi)

/-- C4 counterexample: the attached-to-document check is performed at
admission only, not post-resolution.  One card is admitted (the check
passes), the host page detaches it while its stats fetch is in flight,
and when the fetch resolves the overlay is still built and inserted into
the now-detached element — the attempt is not abandoned, contrary to the
claim that the triple check is performed at the point of insertion. -/
theorem C4_detached_element_still_receives_overlay_counterexample :
    (((Life.lifeRun (Life.initPage 1 false false true)
        [.admitEv 0, .detach 0, .fetchOk 0]).elems[0]?).map
        Life.ElemState.attached).getD true = false ∧
      (((Life.lifeRun (Life.initPage 1 false false true)
        [.admitEv 0, .detach 0, .fetchOk 0]).elems[0]?).map
        Life.ElemState.overlayCount).getD 0 = 1 ∧
      (Life.lifeRun (Life.initPage 1 false false true)
        [.admitEv 0, .detach 0, .fetchOk 0]).liveOverlays = 1 := by
  refine ⟨by decide, by decide, by decide⟩

/-- C4 (amended): the attached-to-document and processed-flag checks (and
the no-existing-overlay check) are performed at admission, before the
async stats fetch, and failing any of them abandons the attempt silently
with no state change; at the point of insertion, after the fetch, only
the existing-overlay check is re-performed (after re-matching a
descriptor), and if it fails the built overlay is discarded, not inserted
(the page-wide counter is still incremented); an element that became
detached during the fetch still receives the overlay. -/
theorem C4_admission_checks_and_insertion_check
    (p : Life.PageState) (i : Nat) (e : Life.ElemState)
    (hg : p.elems[i]? = some e) :
    (p.isRemelt = false →
      (e.attached = false ∨ e.processed = true ∨ e.overlayCount ≠ 0) →
      Life.admitStep p i = p) ∧
      (e.pendingFetches ≠ 0 → e.hasSelector = true → e.overlayCount ≠ 0 →
        Life.fetchOkStep p i
          = { p with
                elems := p.elems.set i ({ e with pendingFetches := e.pendingFetches - 1, statsCached := true })
                totalCounter := p.totalCounter + 1 }) ∧
      (e.pendingFetches ≠ 0 → e.hasSelector = true → e.overlayCount = 0 →
        e.insertIntoSelf = true → e.attached = false →
        (Life.fetchOkStep p i).liveOverlays = p.liveOverlays + 1 ∧
          (Life.fetchOkStep p i).elems[i]?
            = some ({ e with pendingFetches := e.pendingFetches - 1, statsCached := true, overlayCount := 1 })) := by
  have hlt : i < p.elems.length := by
    rcases List.getElem?_eq_some.mp hg with ⟨hl, _⟩
    exact hl
  refine ⟨?_, ?_, ?_⟩
  · intro hrm hdisj
    cases hov : e.overlayCount with
    | succ n => simp [Life.admitStep, hg, hov]
    | zero =>
      by_cases hcap : (!p.unlimited && decide (p.totalCounter ≥ 200)) = true
      · simp [Life.admitStep, hg, hov, hcap]
      · have hcap' : (!p.unlimited && decide (p.totalCounter ≥ 200)) = false := by
          revert hcap
          cases (!p.unlimited && decide (p.totalCounter ≥ 200)) <;> simp
        rcases hdisj with hatt | hpr | hovn
        · simp [Life.admitStep, hg, hov, hcap', hatt]
        · cases hatt : e.attached with
          | false => simp [Life.admitStep, hg, hov, hcap', hatt]
          | true =>
            have heq : Life.admitStep p i = { p with elems := p.elems.set i e } := by
              simp [Life.admitStep, hg, hov, hcap', hatt, hrm, hpr]
            rw [heq, list_set_same _ _ _ hg]
        · exact absurd hov (by simpa using hovn)
  · intro hpf hsel hov
    have heq : Life.fetchOkStep p i
        = Life.insertAttempt
            { p with elems := p.elems.set i ({ e with pendingFetches := e.pendingFetches - 1, statsCached := true }) } i := by
      simp [Life.fetchOkStep, hg, hpf]
    rw [heq]
    have hg2 : (p.elems.set i ({ e with pendingFetches := e.pendingFetches - 1, statsCached := true }))[i]?
        = some ({ e with pendingFetches := e.pendingFetches - 1, statsCached := true }) := by
      simp [List.getElem?_set_self, hlt]
    simp only [Life.insertAttempt, List.get?_eq_getElem?, hg2]
    simp [hsel, hov]
  · intro hpf hsel hov hself hatt
    have heq : Life.fetchOkStep p i
        = Life.insertAttempt
            { p with elems := p.elems.set i ({ e with pendingFetches := e.pendingFetches - 1, statsCached := true }) } i := by
      simp [Life.fetchOkStep, hg, hpf]
    rw [heq]
    have hg2 : (p.elems.set i ({ e with pendingFetches := e.pendingFetches - 1, statsCached := true }))[i]?
        = some ({ e with pendingFetches := e.pendingFetches - 1, statsCached := true }) := by
      simp [List.getElem?_set_self, hlt]
    have heq2 : Life.insertAttempt
          { p with elems := p.elems.set i ({ e with pendingFetches := e.pendingFetches - 1, statsCached := true }) } i
        = { p with
              elems := (p.elems.set i ({ e with pendingFetches := e.pendingFetches - 1, statsCached := true })).set i
                ({ e with pendingFetches := e.pendingFetches - 1, statsCached := true, overlayCount := e.overlayCount + 1 })
              liveOverlays := p.liveOverlays + 1
              totalCounter := p.totalCounter + 1 } := by
      simp only [Life.insertAttempt, List.get?_eq_getElem?, hg2]
      simp [hsel, hov, hself]
    rw [heq2]
    constructor
    · rfl
    · rw [List.set_set]
      simp [List.getElem?_set_self, hlt, hov]

/-- Witness for the amended C4: after one admission the element is
flagged processed, so a second admission is abandoned with no state
change; and an element detached during its fetch still receives the
overlay when the fetch resolves. -/
theorem C4_admission_checks_and_insertion_check_witness :
    Life.admitStep
        (Life.lifeRun (Life.initPage 1 false false true) [.admitEv 0]) 0
      = Life.lifeRun (Life.initPage 1 false false true) [.admitEv 0] ∧
      (Life.fetchOkStep
        (Life.lifeRun (Life.initPage 1 false false true)
          [.admitEv 0, .detach 0]) 0).liveOverlays
        = (Life.lifeRun (Life.initPage 1 false false true)
            [.admitEv 0, .detach 0]).liveOverlays + 1 := by
  constructor
  · exact (C4_admission_checks_and_insertion_check
      (Life.lifeRun (Life.initPage 1 false false true) [.admitEv 0]) 0
      ⟨true, true, 0, 1, true, true, false, false⟩ (by decide)).1
      rfl (Or.inr (Or.inl rfl))
  · exact ((C4_admission_checks_and_insertion_check
      (Life.lifeRun (Life.initPage 1 false false true) [.admitEv 0, .detach 0]) 0
      ⟨false, true, 0, 1, true, true, false, false⟩ (by decide)).2.2
      (by decide) rfl rfl rfl rfl).1

set_option maxRecDepth 200000 in
/-- C5 counterexample: live overlay nodes can exceed `MAX_TOTAL_OVERLAYS`
(200) on a page where the cap is in force.  201 cards are admitted while
the counter (incremented only at insertion) is still below the cap; every
fetch then resolves and inserts, leaving 201 live overlays on a
non-unlimited page.  The next periodic sweep brings the count back to
200 — the claim's "never exceeds 200" is false between the burst and the
sweep. -/
theorem C5_live_overlays_exceed_cap_counterexample :
    (Life.lifeRun (Life.initPage 201 false false true) c5Evs).liveOverlays
        = 201 ∧
      (Life.lifeRun (Life.initPage 201 false false true) c5Evs).unlimited
        = false ∧
      (Life.cleanupStep
        (Life.lifeRun (Life.initPage 201 false false true) c5Evs)).liveOverlays
        = 200 := by
  refine ⟨by decide, by decide, by decide⟩

set_option maxRecDepth 200000 in
/-- C5 (amended): on a non-unlimited page an overlay-creation attempt is
refused at admission once `currentOverlaysCount` has reached 200; the
counter is only incremented at insertion, so a batch of concurrently
admitted cards can push the number of live overlay nodes above 200
transiently; the number of live overlays never exceeds the counter, and
each periodic sweep restores at most 200 live overlays on non-unlimited
pages; on unlimited pages (trade/remelt) the cap is not enforced — a
fresh card element is admitted whatever the counter holds — and the
count may exceed 200 and stay there, the sweep removing nothing. -/
theorem C5_cap_admission_and_sweep :
    (∀ (p : Life.PageState) (i : Nat), p.unlimited = false →
        200 ≤ p.totalCounter → Life.admitStep p i = p) ∧
      (∀ (evs : List Life.LifeEv) (n : Nat) (u r s : Bool),
        (Life.lifeRun (Life.initPage n u r s) evs).liveOverlays
          ≤ (Life.lifeRun (Life.initPage n u r s) evs).totalCounter) ∧
      (∀ p : Life.PageState, p.liveOverlays ≤ p.totalCounter →
        p.unlimited = false → (Life.cleanupStep p).liveOverlays ≤ 200) ∧
      (∀ (p : Life.PageState) (i : Nat) (e : Life.ElemState),
        p.unlimited = true → p.elems[i]? = some e →
        e.overlayCount = 0 → e.attached = true →
        (p.isRemelt && e.remeltGuard) = false →
        e.processed = false → e.statsCached = false →
        Life.admitStep p i
          = { p with elems := p.elems.set i ({ e with
                  processed := true
                  pendingFetches := e.pendingFetches + 1
                  remeltGuard := (p.isRemelt || e.remeltGuard) }) }) ∧
      ((Life.lifeRun (Life.initPage 201 true false true) c5UEvs).totalCounter
          = 201 ∧
        (Life.lifeRun (Life.initPage 201 true false true) c5UEvs).liveOverlays
          = 201 ∧
        (Life.cleanupStep
          (Life.lifeRun
            (Life.initPage 201 true false true) c5UEvs)).liveOverlays
          = 201) := by
  refine ⟨?_, ?_, ?_, ?_, ?_⟩
  · intro p i hu hc
    cases hgi : p.elems[i]? with
    | none => simp [Life.admitStep, hgi]
    | some e =>
      cases hov : e.overlayCount with
      | succ n => simp [Life.admitStep, hgi, hov]
      | zero =>
        have hcap : (!p.unlimited && decide (p.totalCounter ≥ 200)) = true := by
          simp [hu, hc]
        simp [Life.admitStep, hgi, hov, hcap]
  · intro evs n u r s
    exact Life.live_run evs _ (by simp [Life.initPage])
  · intro p h hu
    unfold Life.cleanupStep
    by_cases hgt : p.totalCounter > 200
    · have hcond : (!p.unlimited && decide (p.totalCounter > 200)) = true := by
        simp [hu, hgt]
      simp only [hcond, if_pos]
      show p.liveOverlays - min (p.totalCounter - 200) p.liveOverlays ≤ 200
      by_cases hm : p.totalCounter - 200 ≤ p.liveOverlays
      · rw [Nat.min_eq_left hm]
        omega
      · have hm' : p.liveOverlays ≤ p.totalCounter - 200 := by omega
        rw [Nat.min_eq_right hm']
        omega
    · have hcond : (!p.unlimited && decide (p.totalCounter > 200)) = false := by
        simp [hgt]
      simp only [hcond, Bool.false_eq_true, if_false]
      omega
  · intro p i e hu hgi hov hatt hrg hpr hsc
    have hcap' : (!p.unlimited && decide (p.totalCounter ≥ 200)) = false := by
      simp [hu]
    cases hrm : p.isRemelt with
    | true =>
      have hrgf : e.remeltGuard = false := by
        revert hrg
        rw [hrm]
        cases e.remeltGuard <;> simp
      have heq : Life.admitStep p i
          = { p with elems := p.elems.set i ({ e with remeltGuard := true, processed := true, pendingFetches := e.pendingFetches + 1 }) } := by
        simp [Life.admitStep, hgi, hov, hcap', hatt, hrm, hrgf, hpr, hsc]
      rw [heq]
      simp [hrm]
    | false =>
      have heq : Life.admitStep p i
          = { p with elems := p.elems.set i ({ e with processed := true, pendingFetches := e.pendingFetches + 1 }) } := by
        simp [Life.admitStep, hgi, hov, hcap', hatt, hrm, hpr, hsc]
      rw [heq]
      simp [hrm]
  · refine ⟨by decide, by decide, by decide⟩

set_option maxRecDepth 200000 in
/-- Witness for the amended C5: with the counter at 200 on a capped page
an admission is refused unchanged; a sweep of a state with counter 300
and 250 live overlays leaves at most 200 live overlays; and on an
unlimited page with the counter at 500 a fresh card element is still
admitted (processed flag set, stats fetch started). -/
theorem C5_cap_admission_and_sweep_witness :
    Life.admitStep
        { elems := [Life.mkElem true], totalCounter := 200, liveOverlays := 0
          unlimited := false, isRemelt := false } 0
      = { elems := [Life.mkElem true], totalCounter := 200, liveOverlays := 0
          unlimited := false, isRemelt := false } ∧
      (Life.cleanupStep
        { elems := [], totalCounter := 300, liveOverlays := 250
          unlimited := false, isRemelt := false }).liveOverlays ≤ 200 ∧
      (Life.admitStep
        { elems := [Life.mkElem true], totalCounter := 500, liveOverlays := 0
          unlimited := true, isRemelt := false } 0).elems[0]?
      = some
          { attached := true, processed := true, overlayCount := 0
            pendingFetches := 1, insertIntoSelf := true, hasSelector := true
            statsCached := false, remeltGuard := false } := by
  refine ⟨?_, ?_, ?_⟩
  · exact C5_cap_admission_and_sweep.1 _ 0 rfl (by decide)
  · exact C5_cap_admission_and_sweep.2.2.1 _ (by decide) rfl
  · rw [C5_cap_admission_and_sweep.2.2.2.1 _ 0 (Life.mkElem true)
      rfl (by decide) (by decide) (by decide) (by decide) (by decide) (by decide)]
    decide

/-- Every member of `prefixesOf p` is a prefix of `p`. -/
theorem Observer.mem_prefixesOf :
    ∀ (p q : List Nat), q ∈ Observer.prefixesOf p → q <+: p := by
  intro p
  induction p with
  | nil =>
    intro q hq
    simp only [Observer.prefixesOf, List.mem_singleton] at hq
    subst hq
    exact ⟨[], rfl⟩
  | cons i r ih =>
    intro q hq
    simp only [Observer.prefixesOf, List.mem_cons, List.mem_map] at hq
    rcases hq with hq | ⟨q', hq', rfl⟩
    · subst hq
      exact ⟨i :: r, rfl⟩
    · obtain ⟨t, ht⟩ := ih q' hq'
      exact ⟨t, by rw [List.cons_append, ht]⟩

/-- If an ancestor-or-self node (a node at a prefix of the path) has class
`c`, the chain from the root down to the path sees class `c` (the
`closest` query succeeds). -/
theorem Dom.chainHasClass_of_ancestor (c : String) :
    ∀ (q p : List Nat) (doc el : Dom), q <+: p → doc.get? q = some el →
      el.hasClass c = true → Dom.chainHasClass doc p c = true := by
  intro q
  induction q with
  | nil =>
    intro p doc el _ hget hc
    have hde : doc = el := by simpa [Dom.get?] using hget
    subst hde
    cases p with
    | nil => simpa [Dom.chainHasClass] using hc
    | cons i rest => simp [Dom.chainHasClass, hc]
  | cons i q' ih =>
    intro p doc el hpre hget hc
    obtain ⟨r, rfl⟩ := hpre
    cases hch : doc.children.get? i with
    | none => simp [Dom.get?, hch] at hget
    | some ch =>
      have hget' : Dom.get? ch q' = some el := by
        simpa [Dom.get?, hch] using hget
      have hrec := ih (q' ++ r) ch el ⟨r, rfl⟩ hget' hc
      rw [List.cons_append]
      simp [Dom.chainHasClass, hch, hrec]

/-- An overlay-related node trips the three-way overlay guard (is an
overlay, `closest` finds one, or `querySelector` finds one). -/
theorem Observer.overlayGuard_of_related (doc : Dom) (p : List Nat) (el : Dom)
    (hrel : Observer.overlayRelated doc p = true) (hget : doc.get? p = some el) :
    (el.hasClass "card-stats-overlay" ||
      Dom.chainHasClass doc p "card-stats-overlay" ||
      el.descHasClass "card-stats-overlay") = true := by
  simp only [Observer.overlayRelated, Bool.or_eq_true, List.any_eq_true] at hrel
  rcases hrel with ⟨q, hqmem, hq⟩ | hdesc
  · cases hgq : doc.get? q with
    | none => rw [hgq] at hq; simp at hq
    | some elq =>
      rw [hgq] at hq
      have hchain := Dom.chainHasClass_of_ancestor "card-stats-overlay" q p doc elq
        (Observer.mem_prefixesOf p q hqmem) hgq hq
      simp [hchain]
  · rw [hget] at hdesc
    simp only [] at hdesc
    simp [hdesc]

/-- An overlay-related added node trips the observer's skip guard. -/
theorem Observer.skipEl_of_related (doc : Dom) (p : List Nat) (el : Dom)
    (hrel : Observer.overlayRelated doc p = true) (hget : doc.get? p = some el) :
    Observer.overlaySkipEl doc p el = true := by
  have hg := Observer.overlayGuard_of_related doc p el hrel hget
  simp only [Bool.or_eq_true] at hg
  simp only [Observer.overlaySkipEl, Bool.or_eq_true]
  tauto

/-- An overlay-related attribute target is never trade-related: the guard
at the top of `isTradeRelatedElement` rejects it. -/
theorem Observer.tradeRel_of_related (env : Observer.CssEnv) (doc : Dom)
    (p : List Nat) (a : String)
    (hrel : Observer.overlayRelated doc p = true) :
    Observer.isTradeRelatedElement env doc p (some a) = false := by
  cases hget : doc.get? p with
  | none => simp [Observer.isTradeRelatedElement, hget]
  | some el =>
    have hg := Observer.overlayGuard_of_related doc p el hrel hget
    simp [Observer.isTradeRelatedElement, hget, hg]

/-- An overlay-related added node leaves the callback flags untouched. -/
theorem Observer.processAdded_of_related (env : Observer.CssEnv) (doc : Dom)
    (f : Observer.ObsFlags) (p : List Nat)
    (hrel : Observer.overlayRelated doc p = true) :
    Observer.processAdded env doc f p = f := by
  cases hget : doc.get? p with
  | none => simp [Observer.processAdded, hget]
  | some el =>
    have hskip := Observer.skipEl_of_related doc p el hrel hget
    simp [Observer.processAdded, hget, hskip]

/-- An overlay-related attribute mutation leaves the callback flags
untouched. -/
theorem Observer.processAttr_of_related (env : Observer.CssEnv) (doc : Dom)
    (f : Observer.ObsFlags) (p : List Nat) (a : String)
    (hrel : Observer.overlayRelated doc p = true) :
    Observer.processAttr env doc f p a = f := by
  simp [Observer.processAttr, Observer.tradeRel_of_related env doc p a hrel]

/-- Folding the added-node classifier over overlay-related nodes is the
identity on the flags. -/
theorem Observer.foldl_processAdded_of_related (env : Observer.CssEnv) (doc : Dom) :
    ∀ (l : List (List Nat)), (∀ p ∈ l, Observer.overlayRelated doc p = true) →
      ∀ f, l.foldl (Observer.processAdded env doc) f = f := by
  intro l
  induction l with
  | nil => intro _ f; rfl
  | cons p ps ih =>
    intro h f
    rw [List.foldl_cons, Observer.processAdded_of_related env doc f p (h p (by simp))]
    exact ih (fun q hq => h q (by simp [hq])) f

/-- A mutation record whose added nodes / attribute target are all
overlay-related contributes nothing to the callback flags (removed nodes
never contribute regardless). -/
theorem Observer.processMutation_of_overlayOnly (env : Observer.CssEnv) (doc : Dom)
    (m : Observer.MutRec) (hm : Observer.mutOverlayOnly doc m = true)
    (f : Observer.ObsFlags) :
    Observer.processMutation env doc f m = f := by
  cases m with
  | childList added removed =>
    simp only [Observer.mutOverlayOnly, List.all_eq_true] at hm
    exact Observer.foldl_processAdded_of_related env doc added hm f
  | attr target a =>
    simp only [Observer.mutOverlayOnly] at hm
    exact Observer.processAttr_of_related env doc f target a hm

/-- C2: any DOM mutation batch in which every added node and every
attribute target is, contains, or is contained by an overlay subtree
(`.card-stats-overlay`, whose interior `.card-stats` nodes are covered as
in-overlay nodes) is ignored by the mutation observer — the callback sets
no flags and schedules no re-scan (`none`), for every page URL, document,
and CSS-matching oracle, and with removed nodes unrestricted.  Inserting
or removing an overlay therefore never by itself triggers a
mutation-driven re-scan cycle. -/
theorem C2_overlay_mutations_never_trigger_rescan
    (env : Observer.CssEnv) (doc : Dom) (muts : List Observer.MutRec)
    (h : ∀ m ∈ muts, Observer.mutOverlayOnly doc m = true) :
    Observer.observerCallback env doc muts = none := by
  have hfold : ∀ (l : List Observer.MutRec),
      (∀ m ∈ l, Observer.mutOverlayOnly doc m = true) →
      ∀ f, l.foldl (Observer.processMutation env doc) f = f := by
    intro l
    induction l with
    | nil => intro _ f; rfl
    | cons m ms ih =>
      intro hl f
      rw [List.foldl_cons,
        Observer.processMutation_of_overlayOnly env doc m (hl m (by simp)) f]
      exact ih (fun x hx => hl x (by simp [hx])) f
  simp only [Observer.observerCallback]
  rw [hfold muts h ⟨false, false, false⟩]
  simp

/-- Witness for C2: on the concrete document, inserting the overlay
subtree, mutating an attribute inside it, and removing a node schedules no
re-scan, even against oracles that claim every node matches the card and
container selectors. -/
theorem C2_overlay_mutations_never_trigger_rescan_witness :
    (∀ m ∈ c2Muts, Observer.mutOverlayOnly c2Doc m = true) ∧
      Observer.observerCallback c2Env c2Doc c2Muts = none :=
  ⟨by decide, C2_overlay_mutations_never_trigger_rescan c2Env c2Doc c2Muts (by decide)⟩
